import Mathlib

/-!
# Jewelry shop backend: gold loans and invoices

A shallow embedding of `routes/goldLoanRoutes.js`, `models/GoldLoan.js`,
`routes/invoiceRoutes.js`, `models/Invoice.js`, `models/Customer.js`,
`models/Inventory.js` and the transaction route of `routes/inventoryRoutes.js`.

Modelling conventions.

* A JavaScript `Number` that carries money, a rate or a weight is an exact
  rational (`ℚ`). The routes are first modelled with exact arithmetic; the
  repayment route is modelled a second time with every arithmetic result passed
  through a rounding function (`toDouble` for binary64), for the one claim whose
  truth depends on rounding.
* A `Date` is its local calendar fields; `setMonth` follows the ECMAScript
  `MakeDay` rule (months carry into years, a day past the end of the month
  carries into the next month).
* A collection is the list of its documents in insertion order. `save` first
  checks the document against the validators the schema declares (the
  validation hook runs ahead of the schema's own pre-save hooks), then runs the
  pre-save hooks, then enforces the unique indexes and writes.
* The clock (`now`) and the fresh `_id` of a new document are arguments.
-/

namespace JewelShop

/-! ## Dates -/

/-- Local calendar fields of a JavaScript `Date`; `month` is 0-based. -/
structure Date where
  year : Int
  month : Nat
  day : Nat
  time : Nat
deriving DecidableEq, Repr

def isLeapYear (y : Int) : Bool :=
  (y % 4 == 0 && y % 100 != 0) || y % 400 == 0

def daysInMonth (y : Int) (m : Nat) : Nat :=
  if m == 1 then (if isLeapYear y then 29 else 28)
  else if m == 3 || m == 5 || m == 8 || m == 10 then 30
  else 31

/-- The truncation `ToIntegerOrInfinity` applied to a finite number. -/
def toInteger (q : ℚ) : Int :=
  if 0 ≤ q then Rat.floor q else -Rat.floor (-q)

/-- `Date.prototype.getMonth`. -/
def Date.getMonth (d : Date) : Int := d.month

/-- `Date.prototype.setMonth(m)`: the month index is reduced modulo 12 into the
year, and a day of the month that does not exist rolls over into the next month. -/
def Date.setMonth (d : Date) (m : Int) : Date :=
  let y := d.year + m / 12
  let mn := (m % 12).toNat
  let dim := daysInMonth y mn
  if d.day ≤ dim then { d with year := y, month := mn }
  else if mn == 11 then { d with year := y + 1, month := 0, day := d.day - dim }
  else { d with year := y, month := mn + 1, day := d.day - dim }

/-! ## Gold loans: data model (`models/GoldLoan.js`) -/

structure PledgedItem where
  itemType : String
  description : Option String
  weight : ℚ
  purity : ℚ
  marketValue : ℚ
deriving DecidableEq

structure Repayment where
  date : Date
  amount : ℚ
  interestPaid : ℚ
  principalPaid : ℚ
  remainingBalance : ℚ
deriving DecidableEq

/-- A `GoldLoan` document. The fields the schema leaves without a default and
that the route does not supply (`loanNumber`, `endDate`, `nextPaymentDue`,
`updatedAt`) are `none` until a pre-save hook assigns them. -/
structure GoldLoan where
  _id : Nat
  customer : Nat
  loanNumber : Option String
  loanAmount : ℚ
  interestRate : ℚ
  startDate : Date
  duration : ℚ
  endDate : Option Date
  items : List PledgedItem
  totalItemsValue : ℚ
  repayments : List Repayment
  status : String
  remainingAmount : ℚ
  nextPaymentDue : Option Date
  createdAt : Date
  updatedAt : Option Date
deriving DecidableEq

/-- The `enum` of `status` in the loan schema (also the list the status route tests). -/
def loanStatuses : List String := ["active", "closed", "defaulted", "renewed"]

/-- The `enum` of `items.itemType` in the loan schema. -/
def pledgedItemTypes : List String := ["Gold", "Silver", "Diamond"]

/-- What `save` can throw: a validation error naming the failing paths, or a
duplicate key on a unique index. -/
inductive SaveError where
  | validation (paths : List String)
  | duplicateKey (path : String)
deriving DecidableEq

/-- The paths of one pledged item that fail their validators
(`itemType` enum, `weight` min 0). -/
def itemErrors (it : PledgedItem) : List String :=
  (if it.itemType ∈ pledgedItemTypes then [] else ["items.itemType"]) ++
  (if 0 ≤ it.weight then [] else ["items.weight"])

/-- The paths of a loan document that fail the validators of `goldLoanSchema`:
first the required paths that were never set, then the paths the route set,
then the defaulted ones. -/
def loanErrors (l : GoldLoan) : List String :=
  (if l.endDate.isSome then [] else ["endDate"]) ++
  (if l.loanNumber.isSome then [] else ["loanNumber"]) ++
  (if 0 ≤ l.loanAmount then [] else ["loanAmount"]) ++
  (if 0 ≤ l.interestRate ∧ l.interestRate ≤ 100 then [] else ["interestRate"]) ++
  (if 1 ≤ l.duration then [] else ["duration"]) ++
  (l.items.flatMap itemErrors) ++
  (if l.status ∈ loanStatuses then [] else ["status"])

/-! ## Loan numbers (`goldLoanSchema.pre('save')`, second hook) -/

def isDigit (c : Char) : Bool := decide (48 ≤ c.toNat) && decide (c.toNat ≤ 57)

/-- The value of a run of decimal digits, most significant first. -/
def digitsValue (cs : List Char) : Nat :=
  cs.foldl (fun acc c => 10 * acc + (c.toNat - 48)) 0

/-- `parseInt(s)` on a string of characters: the leading run of decimal digits,
`none` (NaN) when there is none. Signs, leading blanks and the `0x` prefix do
not occur in the `slice(2)` of a loan number written by the hook and are read
as NaN here. -/
def parseInt (cs : List Char) : Option Nat :=
  match cs.takeWhile isDigit with
  | [] => none
  | ds => some (digitsValue ds)

/-- The decimal digits of `n`, least significant first, with `fuel` bounding the length. -/
def digitsRev : Nat → Nat → List Char
  | 0, _ => []
  | fuel + 1, n =>
    Char.ofNat (48 + n % 10) :: (if n / 10 = 0 then [] else digitsRev fuel (n / 10))

/-- `Number.prototype.toString` on a non-negative integer. -/
def natToString (n : Nat) : List Char := (digitsRev (n + 1) n).reverse

/-- `String.prototype.padStart(len, '0')`. -/
def padStart (len : Nat) (cs : List Char) : List Char :=
  List.replicate (len - cs.length) '0' ++ cs

/-- `(n).toString()` where `n` may be NaN. -/
def numberToString : Option Nat → List Char
  | none => ['N', 'a', 'N']
  | some n => natToString n

/-- Binary (code point) order on strings, as used by a descending sort on a
string field: `strLt a b` when `a` sorts before `b`. -/
def strLt : List Char → List Char → Bool
  | [], [] => false
  | [], _ :: _ => true
  | _ :: _, [] => false
  | a :: as, b :: bs => decide (a.toNat < b.toNat) || (a == b && strLt as bs)

/-- The `loanNumber` of a document as characters (absent reads as empty). -/
def loanNumberChars (l : GoldLoan) : List Char := (l.loanNumber.getD "").data

/-- `findOne({}, {}, { sort: { loanNumber: -1 } })`: the document whose
`loanNumber` is greatest in string order. -/
def lastLoan : List GoldLoan → Option GoldLoan
  | [] => none
  | l :: rest =>
    match lastLoan rest with
    | none => some l
    | some m => if strLt (loanNumberChars l) (loanNumberChars m) then some m else some l

/-- The number the hook computes for a new loan:
`lastLoan ? parseInt(lastLoan.loanNumber.slice(2)) + 1 : 1`. -/
def nextNumber (loans : List GoldLoan) : Option Nat :=
  match lastLoan loans with
  | none => some 1
  | some l => (parseInt ((loanNumberChars l).drop 2)).map (· + 1)

/-- The loan number the hook assigns: `GL` and the number padded to six digits. -/
def nextLoanNumber (loans : List GoldLoan) : String :=
  String.mk (['G', 'L'] ++ padStart 6 (numberToString (nextNumber loans)))

/-! ## Saving a loan -/

/-- First pre-save hook: on a new document `endDate` is the start date moved on
by `duration` months, and `nextPaymentDue` is computed from the same, already
moved, date object; `updatedAt` is always stamped. -/
def preSaveDates (isNew : Bool) (now : Date) (l : GoldLoan) : GoldLoan :=
  let l1 :=
    if isNew then
      let startDate := l.startDate
      let moved := startDate.setMonth (startDate.getMonth + toInteger l.duration)
      let moved2 := moved.setMonth (moved.getMonth + 1)
      { l with endDate := some moved, nextPaymentDue := some moved2 }
    else l
  { l1 with updatedAt := some now }

/-- Second pre-save hook: a new document gets the next loan number. -/
def preSaveLoanNumber (isNew : Bool) (loans : List GoldLoan) (l : GoldLoan) : GoldLoan :=
  if isNew then { l with loanNumber := some (nextLoanNumber loans) } else l

def findLoan (loans : List GoldLoan) (id : Nat) : Option GoldLoan :=
  loans.find? (fun l => l._id == id)

/-- Write an existing document back in place. -/
def replaceLoan (loans : List GoldLoan) (doc : GoldLoan) : List GoldLoan :=
  loans.map (fun l => if l._id == doc._id then doc else l)

/-- `doc.save()`: validation of the document as the route built it, then the
two pre-save hooks, then the unique indexes (`_id`, `loanNumber`) and the write.
The routes only save an existing document with `startDate` and `duration`
untouched, so `isNew` alone decides the first hook's branch. -/
def saveLoan (now : Date) (isNew : Bool) (loans : List GoldLoan) (doc : GoldLoan) :
    Except SaveError (GoldLoan × List GoldLoan) :=
  match loanErrors doc with
  | p :: ps => .error (.validation (p :: ps))
  | [] =>
    let doc := preSaveLoanNumber isNew loans (preSaveDates isNew now doc)
    if isNew then
      if loans.any (fun l => l._id == doc._id) then .error (.duplicateKey "_id")
      else if loans.any (fun l => l.loanNumber == doc.loanNumber) then
        .error (.duplicateKey "loanNumber")
      else .ok (doc, loans ++ [doc])
    else .ok (doc, replaceLoan loans doc)

/-! ## Customers (`models/Customer.js`) -/

structure HistoryEntry where
  invoiceId : Nat
  date : Date
  totalAmount : ℚ
  paidAmount : ℚ
  dueAmount : ℚ
deriving DecidableEq

structure Customer where
  _id : Nat
  name : String
  mobile : String
  loyaltyPoints : ℚ
  history : List HistoryEntry
  totalDue : ℚ
deriving DecidableEq

def findCustomer (cs : List Customer) (id : Nat) : Option Customer :=
  cs.find? (fun c => c._id == id)

/-! ## Gold loan routes (`routes/goldLoanRoutes.js`) -/

/-- A piece of a response message: literal text, or a number interpolated
into a template literal. -/
inductive MsgPart where
  | text (s : String)
  | num (x : ℚ)
deriving DecidableEq

/-- A response of the loan routes: HTTP status and body. -/
inductive LoanReply where
  | loan (code : Nat) (body : GoldLoan)
  | message (code : Nat) (parts : List MsgPart)
  | saveError (code : Nat) (error : SaveError)
deriving DecidableEq

/-- Body of `POST /`. -/
structure LoanRequest where
  customerId : Nat
  loanAmount : ℚ
  interestRate : ℚ
  duration : ℚ
  items : List PledgedItem

/-- `items.reduce((sum, item) => sum + item.marketValue, 0)`. -/
def totalItemsValue (items : List PledgedItem) : ℚ :=
  items.foldl (fun sum item => sum + item.marketValue) 0

/-- `totalItemsValue * 0.8`. -/
def maxLoanAmount (items : List PledgedItem) : ℚ := totalItemsValue items * (8 / 10)

/-- `new GoldLoan({...})` as the create route calls it, with the schema defaults. -/
def newGoldLoan (now : Date) (newId : Nat) (req : LoanRequest) : GoldLoan :=
  { _id := newId
    customer := req.customerId
    loanNumber := none
    loanAmount := req.loanAmount
    interestRate := req.interestRate
    startDate := now
    duration := req.duration
    endDate := none
    items := req.items
    totalItemsValue := totalItemsValue req.items
    repayments := []
    status := "active"
    remainingAmount := req.loanAmount
    nextPaymentDue := none
    createdAt := now
    updatedAt := none }

/-- `POST /`: create a gold loan. -/
def createLoan (now : Date) (newId : Nat) (req : LoanRequest)
    (customers : List Customer) (loans : List GoldLoan) : LoanReply × List GoldLoan :=
  match findCustomer customers req.customerId with
  | none => (.message 400 [.text "Customer not found"], loans)
  | some _ =>
    if req.loanAmount > maxLoanAmount req.items then
      (.message 400 [.text "Loan amount exceeds maximum allowed value (",
        .num (maxLoanAmount req.items), .text ")"], loans)
    else
      match saveLoan now true loans (newGoldLoan now newId req) with
      | .error e => (.saveError 400 e, loans)
      | .ok (saved, loans') => (.loan 201 saved, loans')

/-- Body of `POST /:id/repayment`; `date` defaults to the current time. -/
structure RepaymentRequest where
  amount : ℚ
  date : Option Date

/-- `(loan.loanAmount * loan.interestRate) / (12 * 100)`. -/
def monthlyInterest (loan : GoldLoan) : ℚ :=
  (loan.loanAmount * loan.interestRate) / (12 * 100)

/-- `Math.min(monthlyInterest, amount)`. -/
def interestPaid (loan : GoldLoan) (amount : ℚ) : ℚ := min (monthlyInterest loan) amount

def principalPaid (loan : GoldLoan) (amount : ℚ) : ℚ := amount - interestPaid loan amount

def remainingBalance (loan : GoldLoan) (amount : ℚ) : ℚ :=
  loan.remainingAmount - principalPaid loan amount

/-- The record pushed onto `loan.repayments`. -/
def repaymentRecord (loan : GoldLoan) (amount : ℚ) (date : Date) : Repayment :=
  { date := date
    amount := amount
    interestPaid := interestPaid loan amount
    principalPaid := principalPaid loan amount
    remainingBalance := remainingBalance loan amount }

/-- The in-memory updates of the repayment route on an active loan, before `save`. -/
def applyRepayment (loan : GoldLoan) (amount : ℚ) (date : Date) : GoldLoan :=
  { loan with
    repayments := loan.repayments ++ [repaymentRecord loan amount date]
    remainingAmount := remainingBalance loan amount
    status := if remainingBalance loan amount ≤ 0 then "closed" else loan.status
    nextPaymentDue := some (date.setMonth (date.getMonth + 1)) }

/-- `POST /:id/repayment`: add a repayment. -/
def addRepayment (now : Date) (id : Nat) (req : RepaymentRequest)
    (loans : List GoldLoan) : LoanReply × List GoldLoan :=
  match findLoan loans id with
  | none => (.message 404 [.text "Loan not found"], loans)
  | some loan =>
    if loan.status ≠ "active" then
      (.message 400 [.text ("Cannot add repayment to " ++ loan.status ++ " loan")], loans)
    else
      match saveLoan now false loans (applyRepayment loan req.amount (req.date.getD now)) with
      | .error e => (.saveError 400 e, loans)
      | .ok (saved, loans') => (.loan 200 saved, loans')

/-- Body of `PUT /:id/status`. -/
structure StatusRequest where
  status : String
  reason : Option String

/-- `PUT /:id/status`: set the status of a loan. -/
def updateStatus (now : Date) (id : Nat) (req : StatusRequest)
    (loans : List GoldLoan) : LoanReply × List GoldLoan :=
  match findLoan loans id with
  | none => (.message 404 [.text "Loan not found"], loans)
  | some loan =>
    if req.status ∉ loanStatuses then (.message 400 [.text "Invalid status"], loans)
    else
      match saveLoan now false loans { loan with status := req.status, updatedAt := some now } with
      | .error e => (.saveError 400 e, loans)
      | .ok (saved, loans') => (.loan 200 saved, loans')

/-- The operations of the loan interface. -/
inductive LoanOp where
  | create (now : Date) (newId : Nat) (req : LoanRequest)
  | repay (now : Date) (id : Nat) (req : RepaymentRequest)
  | setStatus (now : Date) (id : Nat) (req : StatusRequest)

/-- The loan collection after one operation. -/
def stepLoans (customers : List Customer) (op : LoanOp) (loans : List GoldLoan) :
    List GoldLoan :=
  match op with
  | .create now newId req => (createLoan now newId req customers loans).2
  | .repay now id req => (addRepayment now id req loans).2
  | .setStatus now id req => (updateStatus now id req loans).2

/-- A sequence of repayment requests for one loan, applied in order. -/
def repaySeq (id : Nat) : List (Date × RepaymentRequest) → List GoldLoan → List GoldLoan
  | [], loans => loans
  | (now, req) :: rest, loans => repaySeq id rest (addRepayment now id req loans).2

/-! ## The repayment route over rounded arithmetic

The same route with every arithmetic result passed through a rounding function
`rnd`; `rnd = id` is the exact route above, `rnd = toDouble` is the arithmetic
of a JavaScript `Number`. -/

/-- Round to the nearest integer, ties to the even one. -/
def roundHalfEven (q : ℚ) : Int :=
  let f := Rat.floor q
  if q - f < 1 / 2 then f
  else if 1 / 2 < q - f then f + 1
  else if f % 2 = 0 then f else f + 1

/-- The position of the leading bit of `n`, by halving at most `fuel` times. -/
def leadingBit : Nat → Nat → Nat
  | 0, _ => 0
  | fuel + 1, n => if n < 2 then 0 else leadingBit fuel (n / 2) + 1

/-- The exponent `e` with `2 ^ e ≤ |x| < 2 ^ (e + 1)`, for `x ≠ 0`: the leading
bits of numerator and denominator give it up to one, the comparison settles it. -/
def floorLog2 (x : ℚ) : Int :=
  let k : Int := (leadingBit x.num.natAbs x.num.natAbs : Int) - (leadingBit x.den x.den : Int)
  if (2 : ℚ) ^ k ≤ |x| then k else k - 1

/-- The binary64 value nearest to `x` (ties to even), for `x` below the
overflow threshold: 53 significant bits, least exponent −1022. -/
def toDouble (x : ℚ) : ℚ :=
  if x = 0 then 0
  else
    let e := max (floorLog2 x) (-1022)
    let ulp := (2 : ℚ) ^ (e - 52)
    (if x < 0 then -1 else 1) * (roundHalfEven (|x| / ulp) * ulp)

/-- `(loan.loanAmount * loan.interestRate) / (12 * 100)`, product and quotient rounded. -/
def roundedMonthlyInterest (rnd : ℚ → ℚ) (loan : GoldLoan) : ℚ :=
  rnd (rnd (loan.loanAmount * loan.interestRate) / (12 * 100))

/-- `Math.min(monthlyInterest, amount)`. -/
def roundedInterestPaid (rnd : ℚ → ℚ) (loan : GoldLoan) (amount : ℚ) : ℚ :=
  min (roundedMonthlyInterest rnd loan) amount

/-- `amount - interestPaid`, rounded. -/
def roundedPrincipalPaid (rnd : ℚ → ℚ) (loan : GoldLoan) (amount : ℚ) : ℚ :=
  rnd (amount - roundedInterestPaid rnd loan amount)

/-- `loan.remainingAmount - principalPaid`, rounded. -/
def roundedRemainingBalance (rnd : ℚ → ℚ) (loan : GoldLoan) (amount : ℚ) : ℚ :=
  rnd (loan.remainingAmount - roundedPrincipalPaid rnd loan amount)

/-- The in-memory updates of the repayment route on an active loan, before `save`. -/
def applyRoundedRepayment (rnd : ℚ → ℚ) (loan : GoldLoan) (amount : ℚ) (date : Date) :
    GoldLoan :=
  { loan with
    repayments := loan.repayments ++
      [{ date := date
         amount := amount
         interestPaid := roundedInterestPaid rnd loan amount
         principalPaid := roundedPrincipalPaid rnd loan amount
         remainingBalance := roundedRemainingBalance rnd loan amount }]
    remainingAmount := roundedRemainingBalance rnd loan amount
    status := if roundedRemainingBalance rnd loan amount ≤ 0 then "closed" else loan.status
    nextPaymentDue := some (date.setMonth (date.getMonth + 1)) }

/-- `POST /:id/repayment` over rounded arithmetic. -/
def addRoundedRepayment (rnd : ℚ → ℚ) (now : Date) (id : Nat) (req : RepaymentRequest)
    (loans : List GoldLoan) : LoanReply × List GoldLoan :=
  match findLoan loans id with
  | none => (.message 404 [.text "Loan not found"], loans)
  | some loan =>
    if loan.status ≠ "active" then
      (.message 400 [.text ("Cannot add repayment to " ++ loan.status ++ " loan")], loans)
    else
      match saveLoan now false loans
          (applyRoundedRepayment rnd loan req.amount (req.date.getD now)) with
      | .error e => (.saveError 400 e, loans)
      | .ok (saved, loans') => (.loan 200 saved, loans')

/-- A sequence of repayment requests for one loan, applied in order. -/
def roundedRepaySeq (rnd : ℚ → ℚ) (id : Nat) :
    List (Date × RepaymentRequest) → List GoldLoan → List GoldLoan
  | [], loans => loans
  | (now, req) :: rest, loans =>
    roundedRepaySeq rnd id rest (addRoundedRepayment rnd now id req loans).2

/-- Each recorded balance is the balance before it less the recorded principal,
rounded, starting from `start`. -/
def balanceChain (rnd : ℚ → ℚ) : ℚ → List Repayment → Prop
  | _, [] => True
  | start, r :: rs =>
    r.remainingBalance = rnd (start - r.principalPaid) ∧ balanceChain rnd r.remainingBalance rs

/-- The balance after the last recorded repayment, `start` when there is none. -/
def lastBalance : ℚ → List Repayment → ℚ
  | start, [] => start
  | _, r :: rs => lastBalance r.remainingBalance rs

/-! ## Invoices (`models/Invoice.js`, `routes/invoiceRoutes.js`) -/

/-- An item of the request body of `POST /api/invoices`. -/
structure InvoiceItemInput where
  name : String
  weight : ℚ
  rate : ℚ
  makingCharge : Option ℚ

structure InvoiceItem where
  name : String
  weight : ℚ
  rate : ℚ
  makingCharge : ℚ
  totalPrice : ℚ
deriving DecidableEq

/-- An `Invoice` document; `invoiceNumber` is absent until the hook assigns it. -/
structure Invoice where
  _id : Nat
  invoiceNumber : Option Nat
  date : Date
  customer : Nat
  totalAmount : ℚ
  paidAmount : ℚ
  dueAmount : ℚ
  items : List InvoiceItem
  gst : ℚ
  gstAmount : ℚ
  subtotal : ℚ
  status : String
deriving DecidableEq

/-- Body of `POST /api/invoices`; the optional fields take the defaults of the
destructuring (`paidAmount = 0`, `gst = 3`, `date = new Date()`). -/
structure InvoiceRequest where
  customerId : Nat
  items : List InvoiceItemInput
  totalAmount : ℚ
  paidAmount : Option ℚ
  gst : Option ℚ
  date : Option Date

/-- `x || 0` on an optional number. -/
def orZero : Option ℚ → ℚ
  | some v => if v = 0 then 0 else v
  | none => 0

/-- `(item.weight * item.rate) + (item.makingCharge || 0)`. -/
def itemTotalPrice (item : InvoiceItemInput) : ℚ :=
  (item.weight * item.rate) + orZero item.makingCharge

/-- `items.map(item => ({ ...item, totalPrice }))`, as the schema casts it
(`makingCharge` defaults to 0). -/
def itemsWithTotal (items : List InvoiceItemInput) : List InvoiceItem :=
  items.map (fun item =>
    { name := item.name, weight := item.weight, rate := item.rate,
      makingCharge := item.makingCharge.getD 0, totalPrice := itemTotalPrice item })

/-- `itemsWithTotal.reduce((sum, item) => sum + item.totalPrice, 0)`. -/
def subtotal (items : List InvoiceItemInput) : ℚ :=
  (itemsWithTotal items).foldl (fun sum item => sum + item.totalPrice) 0

/-- `subtotal * (gst / 100)`. -/
def gstAmount (items : List InvoiceItemInput) (gst : ℚ) : ℚ := subtotal items * (gst / 100)

def calculatedTotal (items : List InvoiceItemInput) (gst : ℚ) : ℚ :=
  subtotal items + gstAmount items gst

/-- A response of the invoice route. -/
inductive InvoiceReply where
  | invoice (code : Nat) (body : Invoice)
  | message (code : Nat) (message : String)
  | mismatch (code : Nat) (message : String) (calculated provided : ℚ)
  | failed (code : Nat) (message : String) (error : SaveError)
deriving DecidableEq

/-- `findOne({}, {}, { sort: { invoiceNumber: -1 } })`: the highest invoice number. -/
def lastInvoiceNumber : List Invoice → Option Nat
  | [] => none
  | i :: rest =>
    match lastInvoiceNumber rest with
    | none => some (i.invoiceNumber.getD 0)
    | some m => some (max (i.invoiceNumber.getD 0) m)

/-- First pre-save hook of the invoice schema: number the invoice when it has no number. -/
def preSaveInvoiceNumber (invoices : List Invoice) (inv : Invoice) : Invoice :=
  match inv.invoiceNumber with
  | some (_ + 1) => inv
  | _ =>
    { inv with invoiceNumber :=
        match lastInvoiceNumber invoices with
        | some last => some (last + 1)
        | none => some 1 }

/-- Second pre-save hook of the invoice schema: status and due amount. -/
def preSaveInvoiceStatus (inv : Invoice) : Invoice :=
  if inv.paidAmount ≥ inv.totalAmount then
    { inv with status := "paid", dueAmount := 0 }
  else if inv.paidAmount > 0 then
    { inv with status := "partial", dueAmount := inv.totalAmount - inv.paidAmount }
  else
    { inv with status := "pending", dueAmount := inv.totalAmount }

/-- The paths of an invoice that fail the validators of `invoiceSchema`
(a required string must be non-empty). -/
def invoiceErrors (inv : Invoice) : List String :=
  inv.items.flatMap (fun it => if it.name = "" then ["items.name"] else [])

/-- `invoice.save()` on a new invoice: validation, the two pre-save hooks, the
unique indexes and the write. -/
def saveInvoice (invoices : List Invoice) (doc : Invoice) :
    Except SaveError (Invoice × List Invoice) :=
  match invoiceErrors doc with
  | p :: ps => .error (.validation (p :: ps))
  | [] =>
    let doc := preSaveInvoiceStatus (preSaveInvoiceNumber invoices doc)
    if invoices.any (fun i => i._id == doc._id) then .error (.duplicateKey "_id")
    else if invoices.any (fun i => i.invoiceNumber == doc.invoiceNumber) then
      .error (.duplicateKey "invoiceNumber")
    else .ok (doc, invoices ++ [doc])

/-- `Customer.findByIdAndUpdate(id, { $push: { history }, $inc: { totalDue, loyaltyPoints } })`. -/
def updateCustomer (customers : List Customer) (id : Nat) (entry : HistoryEntry)
    (due points : ℚ) : List Customer :=
  customers.map (fun c =>
    if c._id == id then
      { c with history := c.history ++ [entry], totalDue := c.totalDue + due,
               loyaltyPoints := c.loyaltyPoints + points }
    else c)

/-- The customer and invoice collections. -/
structure Books where
  customers : List Customer
  invoices : List Invoice
deriving DecidableEq

/-- `POST /api/invoices`: create an invoice and update the customer's history. -/
def createInvoice (now : Date) (newId : Nat) (req : InvoiceRequest) (db : Books) :
    InvoiceReply × Books :=
  let paidAmount := req.paidAmount.getD 0
  let gst := req.gst.getD 3
  let date := req.date.getD now
  match findCustomer db.customers req.customerId with
  | none => (.message 400 "Customer not found", db)
  | some _ =>
    if |calculatedTotal req.items gst - req.totalAmount| > 1 / 100 then
      (.mismatch 400 "Total amount mismatch" (calculatedTotal req.items gst) req.totalAmount, db)
    else
      let dueAmount := req.totalAmount - paidAmount
      let invoice : Invoice :=
        { _id := newId, invoiceNumber := none, date := date, customer := req.customerId,
          totalAmount := req.totalAmount, paidAmount := paidAmount, dueAmount := dueAmount,
          items := itemsWithTotal req.items, gst := gst, gstAmount := gstAmount req.items gst,
          subtotal := subtotal req.items, status := "pending" }
      match saveInvoice db.invoices invoice with
      | .error e => (.failed 500 "Failed to create invoice" e, db)
      | .ok (saved, invoices') =>
        let entry : HistoryEntry :=
          { invoiceId := saved._id, date := saved.date, totalAmount := req.totalAmount,
            paidAmount := paidAmount, dueAmount := dueAmount }
        (.invoice 201 saved,
          { customers := updateCustomer db.customers req.customerId entry dueAmount
              (Rat.floor (paidAmount / 100)),
            invoices := invoices' })

/-- What the two pre-save hooks make of the new document of the create route. -/
def hookedNewLoan (now : Date) (newId : Nat) (req : LoanRequest) (loans : List GoldLoan) :
    GoldLoan :=
  preSaveLoanNumber true loans (preSaveDates true now (newGoldLoan now newId req))

/-! ## Inventory (`models/Inventory.js`, `routes/inventoryRoutes.js`) -/

/-- An entry of `transactions`; `type` may be absent. -/
structure StockTransaction where
  date : Date
  type : Option String
  quantity : ℚ
  price : Option ℚ
  reference : Option String
  notes : Option String
deriving DecidableEq

structure Supplier where
  name : Option String
  contact : Option String
  invoiceNumber : Option String
deriving DecidableEq

/-- An `Inventory` document; `itemCode` and `updatedAt` are absent until the
first pre-save hook assigns them. -/
structure Inventory where
  _id : Nat
  itemCode : Option String
  itemType : String
  category : String
  name : String
  description : Option String
  weight : ℚ
  unit : String
  purity : ℚ
  purchasePrice : ℚ
  sellingPrice : ℚ
  makingCharges : ℚ
  quantity : ℚ
  reorderLevel : ℚ
  supplier : Supplier
  location : String
  status : String
  images : List String
  transactions : List StockTransaction
  createdAt : Date
  updatedAt : Option Date
deriving DecidableEq

def inventoryItemTypes : List String := ["Gold", "Silver", "Diamond", "Platinum", "Other"]

def inventoryCategories : List String := ["Ornament", "Bullion", "Loose Stone", "Raw Material"]

def inventoryUnits : List String := ["gram", "carat", "piece"]

def inventoryStatuses : List String := ["in-stock", "low-stock", "out-of-stock", "ordered"]

def transactionTypes : List String := ["purchase", "sale", "return", "adjustment"]

/-- The paths of one transaction entry that fail their validators (the `enum`
of `type`, which an absent value passes). -/
def transactionErrors (t : StockTransaction) : List String :=
  match t.type with
  | none => []
  | some ty => if ty ∈ transactionTypes then [] else ["transactions.type"]

/-- The paths of an inventory document that fail the validators of `inventorySchema`
(a required string must be non-empty). -/
def inventoryErrors (i : Inventory) : List String :=
  (if i.itemCode.isSome then [] else ["itemCode"]) ++
  (if i.itemType ∈ inventoryItemTypes then [] else ["itemType"]) ++
  (if i.category ∈ inventoryCategories then [] else ["category"]) ++
  (if i.name = "" then ["name"] else []) ++
  (if 0 ≤ i.weight then [] else ["weight"]) ++
  (if i.unit ∈ inventoryUnits then [] else ["unit"]) ++
  (if 0 ≤ i.quantity then [] else ["quantity"]) ++
  (if i.location = "" then ["location"] else []) ++
  (if i.status ∈ inventoryStatuses then [] else ["status"]) ++
  (i.transactions.flatMap transactionErrors)

/-- The `itemCode` of a document as characters (absent reads as empty). -/
def itemCodeChars (i : Inventory) : List Char := (i.itemCode.getD "").data

/-- `this.itemType.substring(0, 2).toUpperCase()` (on ASCII letters). -/
def itemPrefix (itemType : String) : List Char := (itemType.data.take 2).map Char.toUpper

/-- `findOne({ itemCode: new RegExp('^' + prefix) }, {}, { sort: { itemCode: -1 } })`:
among the documents whose `itemCode` starts with the prefix, the one whose
`itemCode` is greatest in string order. -/
def lastItem (pre : List Char) : List Inventory → Option Inventory
  | [] => none
  | i :: rest =>
    if pre.isPrefixOf (itemCodeChars i) then
      match lastItem pre rest with
      | none => some i
      | some m => if strLt (itemCodeChars i) (itemCodeChars m) then some m else some i
    else lastItem pre rest

/-- The item code the hook assigns to a new document. -/
def nextItemCode (items : List Inventory) (itemType : String) : String :=
  let pre := itemPrefix itemType
  let nextNumber : Option Nat :=
    match lastItem pre items with
    | none => some 1
    | some l => (parseInt ((itemCodeChars l).drop 2)).map (· + 1)
  String.mk (pre ++ padStart 6 (numberToString nextNumber))

/-- First pre-save hook of the inventory schema: a new document gets its item
code; `updatedAt` is always stamped. -/
def preSaveItemCode (isNew : Bool) (now : Date) (items : List Inventory) (i : Inventory) :
    Inventory :=
  let i1 := if isNew then { i with itemCode := some (nextItemCode items i.itemType) } else i
  { i1 with updatedAt := some now }

/-- Second pre-save hook of the inventory schema: the status follows the
quantity and the reorder level. -/
def preSaveStockStatus (i : Inventory) : Inventory :=
  if i.quantity ≤ 0 then { i with status := "out-of-stock" }
  else if i.quantity ≤ i.reorderLevel then { i with status := "low-stock" }
  else { i with status := "in-stock" }

def findItem (items : List Inventory) (id : Nat) : Option Inventory :=
  items.find? (fun i => i._id == id)

/-- Write an existing inventory document back in place. -/
def replaceItem (items : List Inventory) (doc : Inventory) : List Inventory :=
  items.map (fun i => if i._id == doc._id then doc else i)

/-- `item.save()`: validation of the document as the route built it, then the
two pre-save hooks, then the unique indexes (`_id`, `itemCode`) and the write. -/
def saveInventory (now : Date) (isNew : Bool) (items : List Inventory) (doc : Inventory) :
    Except SaveError (Inventory × List Inventory) :=
  match inventoryErrors doc with
  | p :: ps => .error (.validation (p :: ps))
  | [] =>
    let doc := preSaveStockStatus (preSaveItemCode isNew now items doc)
    if isNew then
      if items.any (fun i => i._id == doc._id) then .error (.duplicateKey "_id")
      else if items.any (fun i => i.itemCode == doc.itemCode) then
        .error (.duplicateKey "itemCode")
      else .ok (doc, items ++ [doc])
    else .ok (doc, replaceItem items doc)

/-- A response of the inventory routes. -/
inductive InventoryReply where
  | item (code : Nat) (body : Inventory)
  | message (code : Nat) (message : String)
  | saveError (code : Nat) (error : SaveError)
deriving DecidableEq

/-- Body of `POST /:id/transaction`. -/
structure TransactionRequest where
  type : Option String
  quantity : ℚ
  price : Option ℚ
  reference : Option String
  notes : Option String

/-- `type === 'purchase' || type === 'return' ? quantity : -quantity`. -/
def quantityChange (type : Option String) (quantity : ℚ) : ℚ :=
  if type = some "purchase" ∨ type = some "return" then quantity else -quantity

/-- The in-memory updates of the transaction route, before `save`. -/
def applyTransaction (now : Date) (item : Inventory) (req : TransactionRequest) : Inventory :=
  { item with
    quantity := item.quantity + quantityChange req.type req.quantity
    transactions := item.transactions ++
      [{ date := now, type := req.type, quantity := req.quantity, price := req.price,
         reference := req.reference, notes := req.notes }] }

/-- `POST /:id/transaction`: record a purchase, sale, return or adjustment. -/
def addTransaction (now : Date) (id : Nat) (req : TransactionRequest)
    (items : List Inventory) : InventoryReply × List Inventory :=
  match findItem items id with
  | none => (.message 404 "Item not found", items)
  | some item =>
    if req.type = some "sale" ∧ req.quantity > item.quantity then
      (.message 400 "Insufficient stock", items)
    else
      match saveInventory now false items (applyTransaction now item req) with
      | .error e => (.saveError 400 e, items)
      | .ok (saved, items') => (.item 200 saved, items')

/-- The status the second hook stores for a quantity and a reorder level. -/
def stockStatus (quantity reorderLevel : ℚ) : String :=
  if quantity ≤ 0 then "out-of-stock"
  else if quantity ≤ reorderLevel then "low-stock"
  else "in-stock"

/-- The transaction route's document after both pre-save hooks. -/
def hookedTransaction (now : Date) (items : List Inventory) (item : Inventory)
    (req : TransactionRequest) : Inventory :=
  preSaveStockStatus (preSaveItemCode false now items (applyTransaction now item req))

/-- `a < b` on dates: `a` is earlier than `b` (calendar fields compared in order). -/
def Date.before (a b : Date) : Bool :=
  decide (a.year < b.year) || (a.year == b.year &&
    (decide (a.month < b.month) || (a.month == b.month &&
      (decide (a.day < b.day) || (a.day == b.day && decide (a.time < b.time))))))

/-- The `new Invoice({...})` document of the create route after both pre-save hooks. -/
def hookedInvoice (now : Date) (newId : Nat) (req : InvoiceRequest) (invoices : List Invoice) :
    Invoice :=
  preSaveInvoiceStatus (preSaveInvoiceNumber invoices
    { _id := newId, invoiceNumber := none, date := req.date.getD now, customer := req.customerId,
      totalAmount := req.totalAmount, paidAmount := req.paidAmount.getD 0,
      dueAmount := req.totalAmount - req.paidAmount.getD 0,
      items := itemsWithTotal req.items, gst := req.gst.getD 3,
      gstAmount := gstAmount req.items (req.gst.getD 3),
      subtotal := subtotal req.items, status := "pending" })

/-! ## Sample data -/

def sampleDate : Date := { year := 2024, month := 0, day := 15, time := 0 }

def sampleCustomer : Customer :=
  { _id := 1, name := "Asha", mobile := "9876543210", loyaltyPoints := 0, history := [],
    totalDue := 0 }

def sampleItem : PledgedItem :=
  { itemType := "Gold", description := none, weight := 20, purity := 22, marketValue := 125000 }

/-- A request at exactly 80 % of the pledged value. -/
def sampleRequest : LoanRequest :=
  { customerId := 1, loanAmount := 100000, interestRate := 12, duration := 12,
    items := [sampleItem] }

/-- A stored loan: principal 100000 at 12 % for 12 months from `sampleDate`,
against the sample item, nothing repaid yet. -/
def sampleLoan : GoldLoan :=
  { _id := 7
    customer := 1
    loanNumber := some "GL000001"
    loanAmount := 100000
    interestRate := 12
    startDate := sampleDate
    duration := 12
    endDate := some { year := 2025, month := 0, day := 15, time := 0 }
    items := [sampleItem]
    totalItemsValue := 125000
    repayments := []
    status := "active"
    remainingAmount := 100000
    nextPaymentDue := some { year := 2025, month := 1, day := 15, time := 0 }
    createdAt := sampleDate
    updatedAt := some sampleDate }

/-- A request for a negative amount against the same pledge. -/
def negativeRequest : LoanRequest := { sampleRequest with loanAmount := -1 }

/-- The running invariant of a loan of original principal `p` under repayments
computed with rounding `rnd`. -/
structure RepayInv (rnd : ℚ → ℚ) (p : ℚ) (l : GoldLoan) : Prop where
  valid : loanErrors l = []
  principal : l.loanAmount = p
  chain : balanceChain rnd p l.repayments
  balance : l.remainingAmount = lastBalance p l.repayments
  status : (l.status = "active" ∧ (l.repayments = [] ∨ 0 < l.remainingAmount)) ∨
    (l.status = "closed" ∧ l.repayments ≠ [] ∧ l.remainingAmount ≤ 0)
  last : ∀ r ∈ l.repayments.getLast?, r.remainingBalance = l.remainingAmount
  earlier : ∀ r ∈ l.repayments.dropLast, 0 < r.remainingBalance

/-- A stored loan of 1045 at 12 %, nothing repaid yet. -/
def smallLoan : GoldLoan :=
  { sampleLoan with _id := 9, loanNumber := some "GL000002", loanAmount := 1045,
                    remainingAmount := 1045 }

/-- Three payments as the route receives them: the binary64 values of 358.78,
358.78 and 358.79. -/
def smallLoanPayments : List (Date × RepaymentRequest) :=
  [(sampleDate, { amount := toDouble (35878 / 100), date := none }),
   (sampleDate, { amount := toDouble (35878 / 100), date := none }),
   (sampleDate, { amount := toDouble (35879 / 100), date := none })]

/-- The sample loan after a status update to closed. -/
def closedLoan : GoldLoan := { sampleLoan with status := "closed", updatedAt := some sampleDate }

/-- The sample loan under another `_id` and loan number. -/
def loanNumbered (id : Nat) (number : String) : GoldLoan :=
  { sampleLoan with _id := id, loanNumber := some number }

/-- The two most recent loans of a collection that has numbered one million loans. -/
def fullStore : List GoldLoan :=
  [loanNumbered 999999 "GL999999", loanNumbered 1000000 "GL1000000"]

/-- An invoice request whose stated total (53000) is 45 short of the computed
total: 10 × 5000 + 1500 = 51500, GST 3 % = 1545, total 53045. -/
def sampleInvoiceRequest : InvoiceRequest :=
  { customerId := 1
    items := [{ name := "Ring", weight := 10, rate := 5000, makingCharge := some 1500 }]
    totalAmount := 53000
    paidAmount := none
    gst := none
    date := none }

def sampleBooks : Books := { customers := [sampleCustomer], invoices := [] }

/-- A ring in stock: 10 pieces, reorder level 4, marked `ordered`. -/
def sampleItemDoc : Inventory :=
  { _id := 3
    itemCode := some "GO000001"
    itemType := "Gold"
    category := "Ornament"
    name := "Ring"
    description := none
    weight := 8
    unit := "gram"
    purity := 22
    purchasePrice := 40000
    sellingPrice := 45000
    makingCharges := 1500
    quantity := 10
    reorderLevel := 4
    supplier := { name := none, contact := none, invoiceNumber := none }
    location := "Vault"
    status := "ordered"
    images := []
    transactions := []
    createdAt := sampleDate
    updatedAt := some sampleDate }

/-- A sale of 7 pieces. -/
def sampleSale : TransactionRequest :=
  { type := some "sale", quantity := 7, price := some 45000, reference := none, notes := none }

/-- The sample items billed at their computed total (53045) with 60000 paid. -/
def overpaidRequest : InvoiceRequest :=
  { sampleInvoiceRequest with totalAmount := 53045, paidAmount := some 60000 }

/-! ## Basic facts about validation, lookup and save -/

theorem itemErrors_nil_iff (it : PledgedItem) :
    itemErrors it = [] ↔ it.itemType ∈ pledgedItemTypes ∧ 0 ≤ it.weight := by
  unfold itemErrors
  by_cases h1 : it.itemType ∈ pledgedItemTypes <;> by_cases h2 : 0 ≤ it.weight <;> simp [h1, h2]

theorem loanErrors_nil_iff (l : GoldLoan) :
    loanErrors l = [] ↔
      l.loanNumber.isSome = true ∧ 0 ≤ l.loanAmount ∧ (0 ≤ l.interestRate ∧ l.interestRate ≤ 100) ∧
      1 ≤ l.duration ∧ l.endDate.isSome = true ∧
      (∀ it ∈ l.items, it.itemType ∈ pledgedItemTypes ∧ 0 ≤ it.weight) ∧
      l.status ∈ loanStatuses := by
  unfold loanErrors
  simp only [List.append_eq_nil, List.flatMap_eq_nil_iff, itemErrors_nil_iff, ite_eq_left_iff,
    List.cons_ne_nil, imp_false, not_not, and_assoc, List.append_assoc]
  tauto

theorem findLoan_id {loans : List GoldLoan} {id : Nat} {loan : GoldLoan}
    (h : findLoan loans id = some loan) : loan._id = id := by
  have := List.find?_some h
  simpa using this

theorem findLoan_mem {loans : List GoldLoan} {id : Nat} {loan : GoldLoan}
    (h : findLoan loans id = some loan) : loan ∈ loans :=
  List.mem_of_find?_eq_some h

theorem findLoan_replaceLoan_same (loans : List GoldLoan) (doc old : GoldLoan)
    (h : findLoan loans doc._id = some old) :
    findLoan (replaceLoan loans doc) doc._id = some doc := by
  induction loans with
  | nil => simp [findLoan] at h
  | cons a rest ih =>
    by_cases ha : a._id = doc._id
    · simp [findLoan, replaceLoan, ha]
    · have h2 : findLoan rest doc._id = some old := by
        simpa [findLoan, List.find?_cons, ha] using h
      have := ih h2
      simpa [findLoan, replaceLoan, List.find?_cons, ha] using this

theorem findLoan_cons (a : GoldLoan) (rest : List GoldLoan) (id : Nat) :
    findLoan (a :: rest) id = if a._id = id then some a else findLoan rest id := by
  by_cases h : a._id = id <;> simp [findLoan, List.find?_cons, h]

theorem replaceLoan_cons (a : GoldLoan) (rest : List GoldLoan) (doc : GoldLoan) :
    replaceLoan (a :: rest) doc =
      (if a._id = doc._id then doc else a) :: replaceLoan rest doc := by
  simp [replaceLoan]

theorem findLoan_replaceLoan_other (loans : List GoldLoan) (doc : GoldLoan) (id : Nat)
    (h : doc._id ≠ id) :
    findLoan (replaceLoan loans doc) id = findLoan loans id := by
  induction loans with
  | nil => rfl
  | cons a rest ih =>
    rw [replaceLoan_cons, findLoan_cons, findLoan_cons, ih]
    by_cases ha : a._id = doc._id
    · have : a._id ≠ id := by rw [ha]; exact h
      simp [ha, h, this]
    · simp [ha]

/-- Stamping `updatedAt` does not touch a validated path. -/
theorem loanErrors_preSaveDates_existing (now : Date) (doc : GoldLoan) :
    loanErrors (preSaveDates false now doc) = loanErrors doc := rfl

theorem saveLoan_existing_eq (now : Date) (loans : List GoldLoan) (doc : GoldLoan) :
    saveLoan now false loans doc =
      match loanErrors doc with
      | p :: ps => .error (.validation (p :: ps))
      | [] => .ok (preSaveDates false now doc, replaceLoan loans (preSaveDates false now doc)) :=
  rfl

theorem saveLoan_existing (now : Date) (loans : List GoldLoan) (doc : GoldLoan)
    (h : loanErrors (preSaveDates false now doc) = []) :
    saveLoan now false loans doc =
      .ok (preSaveDates false now doc, replaceLoan loans (preSaveDates false now doc)) := by
  rw [loanErrors_preSaveDates_existing] at h
  rw [saveLoan_existing_eq, h]

theorem preSaveDates_existing (now : Date) (l : GoldLoan) :
    preSaveDates false now l = { l with updatedAt := some now } := rfl

theorem loanErrors_applyRepayment (now : Date) (loan : GoldLoan) (amount : ℚ) (date : Date)
    (hv : loanErrors loan = []) :
    loanErrors (preSaveDates false now (applyRepayment loan amount date)) = [] := by
  rw [loanErrors_nil_iff] at hv ⊢
  obtain ⟨h1, h2, h3, h4, h5, h6, h7⟩ := hv
  refine ⟨h1, h2, h3, h4, h5, h6, ?_⟩
  show (if remainingBalance loan amount ≤ 0 then "closed" else loan.status) ∈ loanStatuses
  split_ifs
  · simp [loanStatuses]
  · exact h7

theorem addRepayment_active (now : Date) (id : Nat) (req : RepaymentRequest)
    (loans : List GoldLoan) (loan : GoldLoan)
    (hfind : findLoan loans id = some loan) (hact : loan.status = "active")
    (hv : loanErrors loan = []) :
    addRepayment now id req loans =
      (.loan 200 (preSaveDates false now (applyRepayment loan req.amount (req.date.getD now))),
       replaceLoan loans
         (preSaveDates false now (applyRepayment loan req.amount (req.date.getD now)))) := by
  simp [addRepayment, hfind, hact, saveLoan_existing, loanErrors_applyRepayment, hv]

theorem addRepayment_inactive (now : Date) (id : Nat) (req : RepaymentRequest)
    (loans : List GoldLoan) (loan : GoldLoan)
    (hfind : findLoan loans id = some loan) (hact : loan.status ≠ "active") :
    addRepayment now id req loans =
      (.message 400 [.text ("Cannot add repayment to " ++ loan.status ++ " loan")], loans) := by
  simp [addRepayment, hfind, hact]

theorem loanErrors_setStatus (now : Date) (loan : GoldLoan) (st : String)
    (hv : loanErrors loan = []) (hst : st ∈ loanStatuses) :
    loanErrors (preSaveDates false now { loan with status := st, updatedAt := some now }) = [] := by
  rw [loanErrors_nil_iff] at hv ⊢
  obtain ⟨h1, h2, h3, h4, h5, h6, _⟩ := hv
  exact ⟨h1, h2, h3, h4, h5, h6, hst⟩

theorem updateStatus_valid (now : Date) (id : Nat) (req : StatusRequest)
    (loans : List GoldLoan) (loan : GoldLoan)
    (hfind : findLoan loans id = some loan) (hst : req.status ∈ loanStatuses)
    (hv : loanErrors loan = []) :
    updateStatus now id req loans =
      (.loan 200 { loan with status := req.status, updatedAt := some now },
       replaceLoan loans { loan with status := req.status, updatedAt := some now }) := by
  have h := loanErrors_setStatus now loan req.status hv hst
  have hs := saveLoan_existing now loans _ h
  simp only [updateStatus, hfind, hst, not_true_eq_false, if_false, hs]
  rfl

theorem updateStatus_invalid (now : Date) (id : Nat) (req : StatusRequest)
    (loans : List GoldLoan) (loan : GoldLoan)
    (hfind : findLoan loans id = some loan) (hst : req.status ∉ loanStatuses) :
    updateStatus now id req loans = (.message 400 [.text "Invalid status"], loans) := by
  simp [updateStatus, hfind, hst]

theorem saveLoan_existing_inv (now : Date) (loans loans' : List GoldLoan) (doc saved : GoldLoan)
    (h : saveLoan now false loans doc = .ok (saved, loans')) :
    saved = preSaveDates false now doc ∧ loans' = replaceLoan loans saved ∧
      loanErrors saved = [] := by
  rw [saveLoan_existing_eq] at h
  cases he : loanErrors doc with
  | nil =>
    rw [he] at h
    simp only [Except.ok.injEq, Prod.mk.injEq] at h
    obtain ⟨h1, h2⟩ := h
    subst h1
    exact ⟨rfl, h2.symm, by rw [loanErrors_preSaveDates_existing]; exact he⟩
  | cons p ps =>
    rw [he] at h
    simp at h

theorem addRepayment_accepted_inv (now : Date) (id : Nat) (req : RepaymentRequest)
    (loans loans' : List GoldLoan) (loan saved : GoldLoan) (code : Nat)
    (hfind : findLoan loans id = some loan)
    (h : addRepayment now id req loans = (.loan code saved, loans')) :
    loan.status = "active" ∧
      saved = preSaveDates false now (applyRepayment loan req.amount (req.date.getD now)) ∧
      loans' = replaceLoan loans saved ∧ findLoan loans' id = some saved ∧
      loanErrors saved = [] := by
  by_cases hact : loan.status = "active"
  · cases hs : saveLoan now false loans (applyRepayment loan req.amount (req.date.getD now)) with
    | error e => simp [addRepayment, hfind, hact, hs] at h
    | ok r =>
      obtain ⟨saved', loans''⟩ := r
      simp only [addRepayment, hfind, hact, ne_eq, not_true_eq_false, if_false, hs, Prod.mk.injEq,
        LoanReply.loan.injEq] at h
      obtain ⟨⟨_, h1⟩, h2⟩ := h
      subst h1 h2
      obtain ⟨h3, h4, h5⟩ := saveLoan_existing_inv now loans _ _ _ hs
      refine ⟨hact, h3, h4, ?_, h5⟩
      have hid : saved'._id = id := by rw [h3]; exact (findLoan_id hfind : loan._id = id)
      rw [h4, ← hid]
      exact findLoan_replaceLoan_same loans saved' loan (by rw [hid]; exact hfind)
  · rw [addRepayment_inactive now id req loans loan hfind hact] at h
    simp at h

theorem updateStatus_accepted_inv (now : Date) (id : Nat) (req : StatusRequest)
    (loans loans' : List GoldLoan) (loan saved : GoldLoan) (code : Nat)
    (hfind : findLoan loans id = some loan)
    (h : updateStatus now id req loans = (.loan code saved, loans')) :
    req.status ∈ loanStatuses ∧
      saved = { loan with status := req.status, updatedAt := some now } ∧
      loans' = replaceLoan loans saved ∧ findLoan loans' id = some saved := by
  by_cases hst : req.status ∈ loanStatuses
  · cases hs : saveLoan now false loans { loan with status := req.status, updatedAt := some now } with
    | error e => simp [updateStatus, hfind, hst, hs] at h
    | ok r =>
      obtain ⟨saved', loans''⟩ := r
      simp only [updateStatus, hfind, hst, not_true_eq_false, if_false, hs, Prod.mk.injEq,
        LoanReply.loan.injEq] at h
      obtain ⟨⟨_, h1⟩, h2⟩ := h
      subst h1 h2
      obtain ⟨h3, h4, _⟩ := saveLoan_existing_inv now loans _ _ _ hs
      have h3' : saved' = { loan with status := req.status, updatedAt := some now } := h3
      refine ⟨hst, h3', h4, ?_⟩
      have hid : saved'._id = id := by rw [h3']; exact (findLoan_id hfind : loan._id = id)
      rw [h4, ← hid]
      exact findLoan_replaceLoan_same loans saved' loan (by rw [hid]; exact hfind)
  · rw [updateStatus_invalid now id req loans loan hfind hst] at h
    simp at h

theorem sampleLoan_valid : loanErrors sampleLoan = [] := by
  rw [loanErrors_nil_iff]
  simp [sampleLoan, sampleItem, pledgedItemTypes, loanStatuses]
  norm_num

theorem interestPaid_le (loan : GoldLoan) (amount : ℚ) : interestPaid loan amount ≤ amount :=
  min_le_right _ _

theorem principalPaid_nonneg (loan : GoldLoan) (amount : ℚ) : 0 ≤ principalPaid loan amount :=
  sub_nonneg.mpr (interestPaid_le loan amount)

/-! ## Facts about loan creation -/

theorem foldl_add_marketValue (items : List PledgedItem) (acc : ℚ) :
    items.foldl (fun sum item => sum + item.marketValue) acc =
      acc + (items.map (fun item => item.marketValue)).sum := by
  induction items generalizing acc with
  | nil => simp
  | cons a rest ih => simp [List.foldl_cons, ih, add_assoc]

theorem totalItemsValue_eq_sum (items : List PledgedItem) :
    totalItemsValue items = (items.map (fun item => item.marketValue)).sum := by
  simp [totalItemsValue, foldl_add_marketValue]

/-- The document the create route builds has neither `endDate` nor `loanNumber`,
so validation always reports these two required paths first. -/
theorem loanErrors_newGoldLoan (now : Date) (newId : Nat) (req : LoanRequest) :
    ∃ rest, loanErrors (newGoldLoan now newId req) = "endDate" :: "loanNumber" :: rest :=
  ⟨(if 0 ≤ req.loanAmount then [] else ["loanAmount"]) ++
    ((if 0 ≤ req.interestRate ∧ req.interestRate ≤ 100 then [] else ["interestRate"]) ++
      ((if 1 ≤ req.duration then [] else ["duration"]) ++
        (req.items.flatMap itemErrors ++
          (if "active" ∈ loanStatuses then [] else ["status"])))), by
    simp [loanErrors, newGoldLoan]⟩

theorem saveLoan_new_rejected (now : Date) (newId : Nat) (req : LoanRequest)
    (loans : List GoldLoan) :
    saveLoan now true loans (newGoldLoan now newId req) =
      .error (.validation (loanErrors (newGoldLoan now newId req))) := by
  obtain ⟨rest, h⟩ := loanErrors_newGoldLoan now newId req
  unfold saveLoan
  rw [h]

theorem createLoan_over (now : Date) (newId : Nat) (req : LoanRequest)
    (customers : List Customer) (loans : List GoldLoan) (c : Customer)
    (hc : findCustomer customers req.customerId = some c)
    (ho : req.loanAmount > maxLoanAmount req.items) :
    createLoan now newId req customers loans =
      (.message 400 [.text "Loan amount exceeds maximum allowed value (",
        .num (maxLoanAmount req.items), .text ")"], loans) := by
  simp [createLoan, hc, ho]

theorem createLoan_under (now : Date) (newId : Nat) (req : LoanRequest)
    (customers : List Customer) (loans : List GoldLoan) (c : Customer)
    (hc : findCustomer customers req.customerId = some c)
    (ho : ¬ req.loanAmount > maxLoanAmount req.items) :
    createLoan now newId req customers loans =
      (.saveError 400 (.validation (loanErrors (newGoldLoan now newId req))), loans) := by
  have ho2 : ¬ maxLoanAmount req.items < req.loanAmount := ho
  simp only [createLoan, hc, gt_iff_lt, ho2, if_false, saveLoan_new_rejected]

/-- The create route leaves the collection as it was and never answers with a loan. -/
theorem createLoan_never_stores (now : Date) (newId : Nat) (req : LoanRequest)
    (customers : List Customer) (loans : List GoldLoan) :
    (createLoan now newId req customers loans).2 = loans ∧
      ∀ code loan, (createLoan now newId req customers loans).1 ≠ .loan code loan := by
  cases hc : findCustomer customers req.customerId with
  | none => simp [createLoan, hc]
  | some c =>
    by_cases ho : req.loanAmount > maxLoanAmount req.items
    · rw [createLoan_over now newId req customers loans c hc ho]
      simp
    · rw [createLoan_under now newId req customers loans c hc ho]
      simp

theorem toInteger_natCast (n : ℕ) : toInteger (n : ℚ) = n := by
  have h : Rat.floor (n : ℚ) = ⌊(n : ℚ)⌋ := rfl
  simp [toInteger, h]

theorem sampleRequest_duration : toInteger sampleRequest.duration = 12 :=
  toInteger_natCast 12

/-- Run on the sample request, the two hooks produce the dates and the number of
`sampleLoan`. -/
theorem hookedNewLoan_sample : hookedNewLoan sampleDate 7 sampleRequest [] = sampleLoan := by
  have hd := sampleRequest_duration
  have hn : nextLoanNumber [] = "GL000001" := by decide
  have h1 : sampleDate.setMonth (sampleDate.getMonth + 12) =
      { year := 2025, month := 0, day := 15, time := 0 } := by decide
  have h2 : Date.setMonth { year := 2025, month := 0, day := 15, time := 0 }
      (Date.getMonth { year := 2025, month := 0, day := 15, time := 0 } + 1) =
      { year := 2025, month := 1, day := 15, time := 0 } := by decide
  have ht : totalItemsValue sampleRequest.items = 125000 := by
    simp [totalItemsValue, sampleRequest, sampleItem]
  simp only [hookedNewLoan, preSaveLoanNumber, preSaveDates, newGoldLoan, if_true, hd, hn, h1, h2, ht]
  rfl

theorem sampleRequest_at_ceiling : sampleRequest.loanAmount = maxLoanAmount sampleRequest.items := by
  simp [sampleRequest, maxLoanAmount, totalItemsValue, sampleItem]
  norm_num

theorem loanErrors_sampleRequest :
    loanErrors (newGoldLoan sampleDate 7 sampleRequest) = ["endDate", "loanNumber"] := by
  simp [loanErrors, newGoldLoan, sampleRequest, sampleItem, itemErrors, pledgedItemTypes,
    loanStatuses]
  norm_num

theorem loanErrors_negativeRequest :
    loanErrors (newGoldLoan sampleDate 7 negativeRequest) =
      ["endDate", "loanNumber", "loanAmount"] := by
  simp [loanErrors, newGoldLoan, negativeRequest, sampleRequest, sampleItem, itemErrors,
    pledgedItemTypes, loanStatuses]
  norm_num

/-! ## Every operation keeps the stored loans within the schema -/

theorem mem_replaceLoan (loans : List GoldLoan) (doc l : GoldLoan)
    (h : l ∈ replaceLoan loans doc) : l = doc ∨ l ∈ loans := by
  unfold replaceLoan at h
  obtain ⟨a, ha, hl⟩ := List.mem_map.1 h
  by_cases hid : (a._id == doc._id) = true
  · left; rw [if_pos hid] at hl; exact hl.symm
  · right; rw [if_neg hid] at hl; rw [← hl]; exact ha

theorem saveLoan_existing_store (now : Date) (loans : List GoldLoan) (doc : GoldLoan) :
    (∃ e, saveLoan now false loans doc = .error e) ∨
      ∃ saved, saveLoan now false loans doc = .ok (saved, replaceLoan loans saved) ∧
        loanErrors saved = [] := by
  cases hs : saveLoan now false loans doc with
  | error e => exact Or.inl ⟨e, rfl⟩
  | ok r =>
    obtain ⟨saved, loans'⟩ := r
    obtain ⟨_, h2, h3⟩ := saveLoan_existing_inv now loans loans' doc saved hs
    right
    exact ⟨saved, by rw [h2], h3⟩

theorem addRepayment_store (now : Date) (id : Nat) (req : RepaymentRequest)
    (loans : List GoldLoan) :
    (addRepayment now id req loans).2 = loans ∨
      ∃ saved, (addRepayment now id req loans).2 = replaceLoan loans saved ∧
        loanErrors saved = [] := by
  cases hf : findLoan loans id with
  | none => left; simp [addRepayment, hf]
  | some l =>
    by_cases hact : l.status = "active"
    · rcases saveLoan_existing_store now loans
          (applyRepayment l req.amount (req.date.getD now)) with ⟨e, he⟩ | ⟨saved, hs, hv⟩
      · left; simp [addRepayment, hf, hact, he]
      · right; exact ⟨saved, by simp [addRepayment, hf, hact, hs], hv⟩
    · left; rw [addRepayment_inactive now id req loans l hf hact]

theorem updateStatus_store (now : Date) (id : Nat) (req : StatusRequest)
    (loans : List GoldLoan) :
    (updateStatus now id req loans).2 = loans ∨
      ∃ saved, (updateStatus now id req loans).2 = replaceLoan loans saved ∧
        loanErrors saved = [] := by
  cases hf : findLoan loans id with
  | none => left; simp [updateStatus, hf]
  | some l =>
    by_cases hst : req.status ∈ loanStatuses
    · rcases saveLoan_existing_store now loans
          { l with status := req.status, updatedAt := some now } with ⟨e, he⟩ | ⟨saved, hs, hv⟩
      · left; simp [updateStatus, hf, hst, he]
      · right; exact ⟨saved, by simp [updateStatus, hf, hst, hs], hv⟩
    · left; rw [updateStatus_invalid now id req loans l hf hst]

theorem stepLoans_valid (customers : List Customer) (op : LoanOp) (loans : List GoldLoan)
    (h : ∀ l ∈ loans, loanErrors l = []) :
    ∀ l ∈ stepLoans customers op loans, loanErrors l = [] := by
  have hrep : ∀ saved, loanErrors saved = [] →
      ∀ l ∈ replaceLoan loans saved, loanErrors l = [] := by
    intro saved hv l hl
    rcases mem_replaceLoan loans saved l hl with he | hm
    · rw [he]; exact hv
    · exact h l hm
  cases op with
  | create now newId req =>
    show ∀ l ∈ (createLoan now newId req customers loans).2, loanErrors l = []
    rw [(createLoan_never_stores now newId req customers loans).1]
    exact h
  | repay now id req =>
    show ∀ l ∈ (addRepayment now id req loans).2, loanErrors l = []
    rcases addRepayment_store now id req loans with hs | ⟨saved, hs, hv⟩
    · rw [hs]; exact h
    · rw [hs]; exact hrep saved hv
  | setStatus now id req =>
    show ∀ l ∈ (updateStatus now id req loans).2, loanErrors l = []
    rcases updateStatus_store now id req loans with hs | ⟨saved, hs, hv⟩
    · rw [hs]; exact h
    · rw [hs]; exact hrep saved hv

/-! ## C1: the interest / principal split of a repayment -/

/-- C1. On an active stored loan that satisfies the schema (as every document
written by `save` does), a repayment of any amount is accepted; it computes the monthly interest from the original `loanAmount`,
records `interestPaid = min(monthlyInterest, amount)` and
`principalPaid = amount − interestPaid`, and lowers `remainingAmount` by
`principalPaid`. For principal 100000, rate 12 and amount 2000 the split is
1000 / 1000 and the balance drops by 1000. -/
theorem repayment_split (now : Date) (id : Nat) (req : RepaymentRequest)
    (loans : List GoldLoan) (loan : GoldLoan)
    (hfind : findLoan loans id = some loan) (hact : loan.status = "active")
    (hv : loanErrors loan = []) :
    ∃ saved, addRepayment now id req loans = (.loan 200 saved, replaceLoan loans saved) ∧
      findLoan (replaceLoan loans saved) id = some saved ∧
      monthlyInterest loan = loan.loanAmount * loan.interestRate / 1200 ∧
      saved.repayments = loan.repayments ++
        [{ date := req.date.getD now
           amount := req.amount
           interestPaid := min (loan.loanAmount * loan.interestRate / 1200) req.amount
           principalPaid := req.amount - min (loan.loanAmount * loan.interestRate / 1200) req.amount
           remainingBalance := loan.remainingAmount -
             (req.amount - min (loan.loanAmount * loan.interestRate / 1200) req.amount) }] ∧
      saved.remainingAmount = loan.remainingAmount -
        (req.amount - min (loan.loanAmount * loan.interestRate / 1200) req.amount) ∧
      (loan.loanAmount = 100000 → loan.interestRate = 12 → req.amount = 2000 →
        interestPaid loan req.amount = 1000 ∧ principalPaid loan req.amount = 1000 ∧
        saved.remainingAmount = loan.remainingAmount - 1000) := by
  have hmi : monthlyInterest loan = loan.loanAmount * loan.interestRate / 1200 := by
    unfold monthlyInterest; norm_num
  refine ⟨_, addRepayment_active now id req loans loan hfind hact hv, ?_, hmi, ?_, ?_, ?_⟩
  · have hid : (preSaveDates false now
        (applyRepayment loan req.amount (req.date.getD now)))._id = id := by
      show loan._id = id
      exact findLoan_id hfind
    have := findLoan_replaceLoan_same loans _ loan (by rw [hid]; exact hfind)
    rw [hid] at this
    exact this
  · simp [preSaveDates_existing, applyRepayment, repaymentRecord, remainingBalance,
      principalPaid, interestPaid, hmi]
  · simp [preSaveDates_existing, applyRepayment, remainingBalance, principalPaid,
      interestPaid, hmi]
  · intro h1 h2 h3
    have hi : interestPaid loan req.amount = 1000 := by
      simp only [interestPaid, hmi, h1, h2, h3]; norm_num
    have hp : principalPaid loan req.amount = 1000 := by
      unfold principalPaid; rw [hi, h3]; norm_num
    refine ⟨hi, hp, ?_⟩
    simp [preSaveDates_existing, applyRepayment, remainingBalance, hp]

/-- C1 at the sample loan (principal 100000, rate 12) with a payment of 2000. -/
theorem repayment_split_witness :
    ∃ saved, addRepayment sampleDate 7 ⟨2000, none⟩ [sampleLoan] =
        (.loan 200 saved, replaceLoan [sampleLoan] saved) ∧
      saved.remainingAmount = 100000 - 1000 := by
  obtain ⟨saved, h1, _, _, _, _, h6⟩ :=
    repayment_split sampleDate 7 ⟨2000, none⟩ [sampleLoan] sampleLoan rfl rfl sampleLoan_valid
  exact ⟨saved, h1, (h6 rfl rfl rfl).2.2⟩

/-! ## C2: the loan-to-value ceiling at creation -/

/-- The part of C2 the route honours: for an existing customer the answer is the
message with the ceiling `0.8 × totalItemsValue` exactly when the requested
amount exceeds it. -/
theorem createLoan_ceiling_message_iff (now : Date) (newId : Nat) (req : LoanRequest)
    (customers : List Customer) (loans : List GoldLoan) (c : Customer)
    (hc : findCustomer customers req.customerId = some c) :
    createLoan now newId req customers loans =
        (.message 400 [.text "Loan amount exceeds maximum allowed value (",
          .num (8 / 10 * totalItemsValue req.items), .text ")"], loans) ↔
      req.loanAmount > 8 / 10 * totalItemsValue req.items := by
  have hmax : maxLoanAmount req.items = 8 / 10 * totalItemsValue req.items := by
    unfold maxLoanAmount; ring
  rw [← hmax]
  constructor
  · intro h
    by_contra ho
    rw [createLoan_under now newId req customers loans c hc ho] at h
    simp at h
  · exact createLoan_over now newId req customers loans c hc

/-- C2 (code bug). A request at exactly `0.8 × totalItemsValue` (100000 against
a pledge of 125000) from an existing customer passes the ceiling test and is
then rejected by `save`: validation runs before the pre-save hooks and finds the
required `endDate` and `loanNumber` unset. A request of −1 is rejected the same
way (with `loanAmount` added to the failing paths). For every request the route
leaves the collection as it was and never answers with a loan. -/
theorem createLoan_rejected_at_ceiling :
    sampleRequest.loanAmount = 8 / 10 * totalItemsValue sampleRequest.items ∧
      createLoan sampleDate 7 sampleRequest [sampleCustomer] [] =
        (.saveError 400 (.validation ["endDate", "loanNumber"]), []) ∧
      createLoan sampleDate 7 negativeRequest [sampleCustomer] [] =
        (.saveError 400 (.validation ["endDate", "loanNumber", "loanAmount"]), []) ∧
      ∀ (now : Date) (newId : Nat) (req : LoanRequest) (customers : List Customer)
        (loans : List GoldLoan),
        (createLoan now newId req customers loans).2 = loans ∧
          ∀ code loan, (createLoan now newId req customers loans).1 ≠ .loan code loan := by
  refine ⟨?_, ?_, ?_, createLoan_never_stores⟩
  · rw [sampleRequest_at_ceiling, maxLoanAmount]; ring
  · rw [createLoan_under sampleDate 7 sampleRequest [sampleCustomer] [] sampleCustomer rfl
      (by rw [sampleRequest_at_ceiling]; exact lt_irrefl _), loanErrors_sampleRequest]
  · rw [createLoan_under sampleDate 7 negativeRequest [sampleCustomer] [] sampleCustomer rfl
      (by
        simp [negativeRequest, sampleRequest, maxLoanAmount, totalItemsValue, sampleItem]
        norm_num), loanErrors_negativeRequest]

/-! ## C3: repayments on a loan that is not active -/

/-- C3. A repayment on a loan whose status is closed, defaulted or renewed is
answered with status 400 and a message naming that status, and the loan
collection (hence the loan's repayments, remainingAmount, status and
nextPaymentDue) is left as it was. -/
theorem repayment_rejected_when_not_active (now : Date) (id : Nat) (req : RepaymentRequest)
    (loans : List GoldLoan) (loan : GoldLoan)
    (hfind : findLoan loans id = some loan)
    (hst : loan.status = "closed" ∨ loan.status = "defaulted" ∨ loan.status = "renewed") :
    addRepayment now id req loans =
        (.message 400 [.text ("Cannot add repayment to " ++ loan.status ++ " loan")], loans) ∧
      findLoan (addRepayment now id req loans).2 id = some loan := by
  have hne : loan.status ≠ "active" := by
    rcases hst with h | h | h <;> rw [h] <;> decide
  rw [addRepayment_inactive now id req loans loan hfind hne]
  exact ⟨rfl, hfind⟩

/-- C3 at the sample loan once it has been marked defaulted. -/
theorem repayment_rejected_when_not_active_witness :
    addRepayment sampleDate 7 ⟨500, none⟩ [{ sampleLoan with status := "defaulted" }] =
      (.message 400 [.text "Cannot add repayment to defaulted loan"],
        [{ sampleLoan with status := "defaulted" }]) :=
  (repayment_rejected_when_not_active sampleDate 7 ⟨500, none⟩
    [{ sampleLoan with status := "defaulted" }] { sampleLoan with status := "defaulted" }
    rfl (Or.inr (Or.inl rfl))).1

/-! ## C4: repayments until the loan closes -/

theorem addRoundedRepayment_exact :
    addRoundedRepayment (fun x => x) = addRepayment := by
  funext now id req loans
  rfl

theorem loanErrors_applyRoundedRepayment (rnd : ℚ → ℚ) (now : Date) (loan : GoldLoan)
    (amount : ℚ) (date : Date) (hv : loanErrors loan = []) :
    loanErrors (preSaveDates false now (applyRoundedRepayment rnd loan amount date)) = [] := by
  rw [loanErrors_nil_iff] at hv ⊢
  obtain ⟨h1, h2, h3, h4, h5, h6, h7⟩ := hv
  refine ⟨h1, h2, h3, h4, h5, h6, ?_⟩
  show (if roundedRemainingBalance rnd loan amount ≤ 0 then "closed" else loan.status) ∈ loanStatuses
  split_ifs
  · simp [loanStatuses]
  · exact h7

theorem addRoundedRepayment_active (rnd : ℚ → ℚ) (now : Date) (id : Nat)
    (req : RepaymentRequest) (loans : List GoldLoan) (loan : GoldLoan)
    (hfind : findLoan loans id = some loan) (hact : loan.status = "active")
    (hv : loanErrors loan = []) :
    addRoundedRepayment rnd now id req loans =
      (.loan 200
        (preSaveDates false now (applyRoundedRepayment rnd loan req.amount (req.date.getD now))),
       replaceLoan loans
        (preSaveDates false now
          (applyRoundedRepayment rnd loan req.amount (req.date.getD now)))) := by
  simp [addRoundedRepayment, hfind, hact, saveLoan_existing, loanErrors_applyRoundedRepayment, hv]

theorem addRoundedRepayment_inactive (rnd : ℚ → ℚ) (now : Date) (id : Nat)
    (req : RepaymentRequest) (loans : List GoldLoan) (loan : GoldLoan)
    (hfind : findLoan loans id = some loan) (hact : loan.status ≠ "active") :
    addRoundedRepayment rnd now id req loans =
      (.message 400 [.text ("Cannot add repayment to " ++ loan.status ++ " loan")], loans) := by
  simp [addRoundedRepayment, hfind, hact]

theorem balanceChain_append (rnd : ℚ → ℚ) (start : ℚ) (rs : List Repayment) (r : Repayment) :
    balanceChain rnd start (rs ++ [r]) ↔
      balanceChain rnd start rs ∧
        r.remainingBalance = rnd (lastBalance start rs - r.principalPaid) := by
  induction rs generalizing start with
  | nil => simp [balanceChain, lastBalance]
  | cons a rest ih =>
    show (a.remainingBalance = rnd (start - a.principalPaid) ∧
        balanceChain rnd a.remainingBalance (rest ++ [r])) ↔
      (a.remainingBalance = rnd (start - a.principalPaid) ∧
        balanceChain rnd a.remainingBalance rest) ∧
      r.remainingBalance = rnd (lastBalance a.remainingBalance rest - r.principalPaid)
    rw [ih, and_assoc]

theorem lastBalance_append (start : ℚ) (rs : List Repayment) (r : Repayment) :
    lastBalance start (rs ++ [r]) = r.remainingBalance := by
  induction rs generalizing start with
  | nil => rfl
  | cons a rest ih =>
    show lastBalance a.remainingBalance (rest ++ [r]) = r.remainingBalance
    exact ih _

/-- Without rounding the recorded balances telescope. -/
theorem lastBalance_exact (rnd : ℚ → ℚ) (hr : ∀ x, rnd x = x) (start : ℚ)
    (rs : List Repayment) (h : balanceChain rnd start rs) :
    lastBalance start rs = start - (rs.map (fun r => r.principalPaid)).sum := by
  induction rs generalizing start with
  | nil => simp [lastBalance]
  | cons a rest ih =>
    obtain ⟨h1, h2⟩ := h
    rw [hr] at h1
    simp only [lastBalance, List.map_cons, List.sum_cons]
    rw [ih _ h2, h1]
    ring

theorem repayInv_step (rnd : ℚ → ℚ) (p : ℚ) (now : Date) (l : GoldLoan) (amount : ℚ)
    (date : Date) (h : RepayInv rnd p l) (hact : l.status = "active") :
    RepayInv rnd p (preSaveDates false now (applyRoundedRepayment rnd l amount date)) := by
  have hreps : (preSaveDates false now (applyRoundedRepayment rnd l amount date)).repayments =
      l.repayments ++
        [{ date := date, amount := amount, interestPaid := roundedInterestPaid rnd l amount,
           principalPaid := roundedPrincipalPaid rnd l amount,
           remainingBalance := roundedRemainingBalance rnd l amount }] := rfl
  have hrem : (preSaveDates false now (applyRoundedRepayment rnd l amount date)).remainingAmount =
      roundedRemainingBalance rnd l amount := rfl
  have hst : (preSaveDates false now (applyRoundedRepayment rnd l amount date)).status =
      if roundedRemainingBalance rnd l amount ≤ 0 then "closed" else l.status := rfl
  refine ⟨loanErrors_applyRoundedRepayment rnd now l amount date h.valid, h.principal,
    ?_, ?_, ?_, ?_, ?_⟩
  · rw [hreps, balanceChain_append]
    refine ⟨h.chain, ?_⟩
    show roundedRemainingBalance rnd l amount = _
    rw [← h.balance]
    rfl
  · rw [hreps, hrem, lastBalance_append]
  · rw [hst, hreps, hrem]
    by_cases hle : roundedRemainingBalance rnd l amount ≤ 0
    · right; simp [hle]
    · left; simp only [hle, if_false]; exact ⟨hact, Or.inr (not_le.1 hle)⟩
  · rw [hreps, hrem]
    intro r hr
    simp at hr
    rw [← hr]
  · rw [hreps]
    intro r hr
    rw [List.dropLast_concat] at hr
    rcases h.status with ⟨_, hs⟩ | ⟨hc, _⟩
    · rcases hs with he | hpos
      · rw [he] at hr; simp at hr
      · rcases List.eq_nil_or_concat l.repayments with he | ⟨init, lst, he⟩
        · rw [he] at hr; simp at hr
        · have hl := h.last lst (by rw [he]; simp)
          have he' := h.earlier
          rw [he] at hr he'
          rw [List.concat_eq_append] at hr he'
          rw [List.dropLast_concat] at he'
          rcases List.mem_append.1 hr with hm | hm
          · exact he' r hm
          · simp at hm; rw [hm, hl]; exact hpos
    · rw [hact] at hc; exact absurd hc (by decide)

theorem roundedRepaySeq_closed (rnd : ℚ → ℚ) (id : Nat) (reqs : List (Date × RepaymentRequest))
    (loans : List GoldLoan) (l : GoldLoan) (hfind : findLoan loans id = some l)
    (hne : l.status ≠ "active") : roundedRepaySeq rnd id reqs loans = loans := by
  induction reqs with
  | nil => rfl
  | cons a rest ih =>
    obtain ⟨now, req⟩ := a
    show roundedRepaySeq rnd id rest (addRoundedRepayment rnd now id req loans).2 = loans
    rw [addRoundedRepayment_inactive rnd now id req loans l hfind hne]
    exact ih

theorem roundedRepaySeq_inv (rnd : ℚ → ℚ) (p : ℚ) (id : Nat)
    (reqs : List (Date × RepaymentRequest)) :
    ∀ (loans : List GoldLoan) (l : GoldLoan), findLoan loans id = some l → RepayInv rnd p l →
      ∃ final, findLoan (roundedRepaySeq rnd id reqs loans) id = some final ∧
        RepayInv rnd p final := by
  induction reqs with
  | nil => intro loans l hfind h; exact ⟨l, hfind, h⟩
  | cons a rest ih =>
    intro loans l hfind h
    obtain ⟨now, req⟩ := a
    by_cases hact : l.status = "active"
    · have hstep := addRoundedRepayment_active rnd now id req loans l hfind hact h.valid
      have hid : (preSaveDates false now
          (applyRoundedRepayment rnd l req.amount (req.date.getD now)))._id = id :=
        (findLoan_id hfind : l._id = id)
      have hfind' := findLoan_replaceLoan_same loans
        (preSaveDates false now (applyRoundedRepayment rnd l req.amount (req.date.getD now)))
        l (by rw [hid]; exact hfind)
      rw [hid] at hfind'
      show ∃ final, findLoan (roundedRepaySeq rnd id rest
        (addRoundedRepayment rnd now id req loans).2) id = some final ∧ _
      rw [hstep]
      exact ih _ _ hfind' (repayInv_step rnd p now l req.amount (req.date.getD now) h hact)
    · show ∃ final, findLoan (roundedRepaySeq rnd id rest
        (addRoundedRepayment rnd now id req loans).2) id = some final ∧ _
      rw [addRoundedRepayment_inactive rnd now id req loans l hfind hact]
      exact ih loans l hfind h

theorem repayInv_new (rnd : ℚ → ℚ) (loan : GoldLoan) (hv : loanErrors loan = [])
    (hact : loan.status = "active") (hnone : loan.repayments = [])
    (hrem : loan.remainingAmount = loan.loanAmount) : RepayInv rnd loan.loanAmount loan := by
  refine ⟨hv, rfl, ?_, ?_, Or.inl ⟨hact, Or.inl hnone⟩, ?_, ?_⟩
  · rw [hnone]; trivial
  · rw [hnone, hrem]; rfl
  · rw [hnone]; intro r hr; simp at hr
  · rw [hnone]; intro r hr; simp at hr

theorem roundedRepaySeq_exact (id : Nat) (reqs : List (Date × RepaymentRequest))
    (loans : List GoldLoan) :
    roundedRepaySeq (fun x => x) id reqs loans = repaySeq id reqs loans := by
  induction reqs generalizing loans with
  | nil => rfl
  | cons a rest ih =>
    obtain ⟨now, req⟩ := a
    show roundedRepaySeq (fun x => x) id rest (addRoundedRepayment (fun x => x) now id req loans).2
      = repaySeq id rest (addRepayment now id req loans).2
    rw [addRoundedRepayment_exact, ih]

theorem smallLoan_valid : loanErrors smallLoan = [] := by decide!

/-- The binary64 values of the three payments and of the monthly interest 10.45. -/
theorem toDouble_samples :
    toDouble (35878 / 100) = 1577931127253893 / 4398046511104 ∧
      toDouble (35879 / 100) = 6311900430876017 / 17592186044416 ∧
      roundedMonthlyInterest toDouble smallLoan = 2941413506626355 / 281474976710656 := by
  decide!

/-- C4 (as stated) fails in the arithmetic of the program. On a new loan of
1045 at 12 % the payments 358.78, 358.78 and 358.79 are all accepted; the three
recorded `principalPaid` add up to exactly 1045, the loan amount, yet the stored
`remainingAmount` is 2⁻⁴⁴ (about 5.7e-14), not `loanAmount` minus that sum, and
the loan is still active. -/
theorem rounded_repayments_leave_loan_open :
    findLoan [smallLoan] 9 = some smallLoan ∧ smallLoan.status = "active" ∧
      smallLoan.repayments = [] ∧ smallLoan.remainingAmount = smallLoan.loanAmount ∧
      (findLoan (roundedRepaySeq toDouble 9 smallLoanPayments [smallLoan]) 9).map
        (fun l => (l.status, l.remainingAmount, l.loanAmount,
          (l.repayments.map (fun r => r.principalPaid)).sum, l.repayments.length)) =
        some ("active", 1 / 17592186044416, 1045, 1045, 3) := by
  decide!

/-- C4 (amended). Take a stored loan in the state of a new loan (schema-valid,
active, no repayments, `remainingAmount = loanAmount`) and apply any sequence
of repayment requests, the arithmetic of the route rounded by any `rnd`.
Afterwards each recorded `remainingBalance` is the balance before it less the
recorded `principalPaid` (rounded), and `remainingAmount` is the last recorded
balance; with exact arithmetic this is `loanAmount` minus the sum of
`principalPaid`. The loan is closed exactly when a repayment has been recorded
and `remainingAmount ≤ 0`, and is active otherwise; every recorded repayment
but the last left a positive balance, so only the last one closed the loan; and
once closed every further repayment is rejected and changes nothing. -/
theorem repayments_close_once (rnd : ℚ → ℚ) (id : Nat) (loans : List GoldLoan)
    (loan : GoldLoan) (hfind : findLoan loans id = some loan) (hv : loanErrors loan = [])
    (hact : loan.status = "active") (hnone : loan.repayments = [])
    (hrem : loan.remainingAmount = loan.loanAmount)
    (reqs : List (Date × RepaymentRequest)) :
    ∃ final, findLoan (roundedRepaySeq rnd id reqs loans) id = some final ∧
      final.loanAmount = loan.loanAmount ∧
      balanceChain rnd loan.loanAmount final.repayments ∧
      final.remainingAmount = lastBalance loan.loanAmount final.repayments ∧
      ((∀ x, rnd x = x) → final.remainingAmount =
        loan.loanAmount - (final.repayments.map (fun r => r.principalPaid)).sum) ∧
      (final.status = "closed" ↔ final.repayments ≠ [] ∧ final.remainingAmount ≤ 0) ∧
      (final.status ≠ "closed" → final.status = "active") ∧
      (∀ r ∈ final.repayments.dropLast, 0 < r.remainingBalance) ∧
      (final.status = "closed" → ∀ now' req',
        addRoundedRepayment rnd now' id req' (roundedRepaySeq rnd id reqs loans) =
          (.message 400 [.text "Cannot add repayment to closed loan"],
            roundedRepaySeq rnd id reqs loans)) ∧
      (final.status = "closed" → ∀ more,
        roundedRepaySeq rnd id more (roundedRepaySeq rnd id reqs loans) =
          roundedRepaySeq rnd id reqs loans) := by
  obtain ⟨final, hfin, hI⟩ := roundedRepaySeq_inv rnd loan.loanAmount id reqs loans loan hfind
    (repayInv_new rnd loan hv hact hnone hrem)
  refine ⟨final, hfin, hI.principal, hI.chain, hI.balance, ?_, ?_, ?_, hI.earlier, ?_, ?_⟩
  · intro hr
    rw [hI.balance]
    exact lastBalance_exact rnd hr _ _ hI.chain
  · constructor
    · intro hcl
      rcases hI.status with ⟨ha, _⟩ | ⟨_, hne, hle⟩
      · rw [hcl] at ha; exact absurd ha (by decide)
      · exact ⟨hne, hle⟩
    · rintro ⟨hne, hle⟩
      rcases hI.status with ⟨_, he | hpos⟩ | ⟨hcl, _, _⟩
      · exact absurd he hne
      · exact absurd hle (not_le.2 hpos)
      · exact hcl
  · intro hncl
    rcases hI.status with ⟨ha, _⟩ | ⟨hcl, _, _⟩
    · exact ha
    · exact absurd hcl hncl
  · intro hcl now' req'
    have h := addRoundedRepayment_inactive rnd now' id req' _ final hfin (by rw [hcl]; decide)
    rw [hcl] at h
    exact h
  · intro hcl more
    exact roundedRepaySeq_closed rnd id more _ final hfin (by rw [hcl]; decide)

/-- C4 (amended) at the loan of 1045 with the three binary64 payments. -/
theorem repayments_close_once_witness :
    ∃ final, findLoan (roundedRepaySeq toDouble 9 smallLoanPayments [smallLoan]) 9 = some final ∧
      balanceChain toDouble smallLoan.loanAmount final.repayments ∧
      final.remainingAmount = lastBalance smallLoan.loanAmount final.repayments := by
  obtain ⟨final, h1, _, h3, h4, _⟩ := repayments_close_once toDouble 9 [smallLoan] smallLoan
    rfl smallLoan_valid rfl rfl rfl smallLoanPayments
  exact ⟨final, h1, h3, h4⟩

/-! ## C5: the balance never grows -/

/-- C5. On an active loan every accepted operation leaves `remainingAmount` at
or below its previous value: an accepted repayment of any amount lowers it by
`principalPaid ≥ 0`, an accepted status update does not touch it. (Acceptance
by `save` already implies the schema bounds.) -/
theorem remainingAmount_nonincreasing (now : Date) (id : Nat) (loans : List GoldLoan)
    (loan : GoldLoan) (hfind : findLoan loans id = some loan) (hact : loan.status = "active") :
    (∀ req code saved loans', addRepayment now id req loans = (.loan code saved, loans') →
      findLoan loans' id = some saved ∧ saved.remainingAmount ≤ loan.remainingAmount) ∧
    (∀ req code saved loans', updateStatus now id req loans = (.loan code saved, loans') →
      findLoan loans' id = some saved ∧ saved.remainingAmount ≤ loan.remainingAmount) := by
  have _ := hact
  constructor
  · intro req code saved loans' h
    obtain ⟨_, h2, _, h4, _⟩ := addRepayment_accepted_inv now id req loans loans' loan saved code hfind h
    refine ⟨h4, ?_⟩
    rw [h2]
    show loan.remainingAmount - principalPaid loan req.amount ≤ loan.remainingAmount
    linarith [principalPaid_nonneg loan req.amount]
  · intro req code saved loans' h
    obtain ⟨_, h2, _, h4⟩ := updateStatus_accepted_inv now id req loans loans' loan saved code hfind h
    refine ⟨h4, ?_⟩
    rw [h2]

/-- C5 at the sample loan: a payment of 2000 is accepted and lowers the balance. -/
theorem remainingAmount_nonincreasing_witness :
    ∃ saved, addRepayment sampleDate 7 ⟨2000, none⟩ [sampleLoan] =
        (.loan 200 saved, replaceLoan [sampleLoan] saved) ∧
      saved.remainingAmount ≤ sampleLoan.remainingAmount :=
  ⟨_, addRepayment_active sampleDate 7 ⟨2000, none⟩ [sampleLoan] sampleLoan rfl rfl sampleLoan_valid,
    ((remainingAmount_nonincreasing sampleDate 7 [sampleLoan] sampleLoan rfl rfl).1 ⟨2000, none⟩ 200 _ _
      (addRepayment_active sampleDate 7 ⟨2000, none⟩ [sampleLoan] sampleLoan rfl rfl
        sampleLoan_valid)).2⟩

/-! ## C6: leaving a terminal status -/

theorem saveLoan_existing_snd (now : Date) (loans : List GoldLoan) (doc : GoldLoan) :
    (∃ e, saveLoan now false loans doc = .error e) ∨
      saveLoan now false loans doc =
        .ok (preSaveDates false now doc, replaceLoan loans (preSaveDates false now doc)) := by
  cases hs : saveLoan now false loans doc with
  | error e => exact Or.inl ⟨e, rfl⟩
  | ok r =>
    obtain ⟨saved, loans'⟩ := r
    obtain ⟨h1, h2, _⟩ := saveLoan_existing_inv now loans loans' doc saved hs
    right
    rw [h2, h1]

theorem closedLoan_valid : loanErrors closedLoan = [] :=
  loanErrors_setStatus sampleDate sampleLoan "closed" sampleLoan_valid (by decide)

/-- C6 (as stated) fails: a stored loan whose status is closed is made active
again by a status update requesting `active`. -/
theorem closed_loan_reactivated :
    findLoan [closedLoan] 7 = some closedLoan ∧ closedLoan.status = "closed" ∧
      updateStatus sampleDate 7 ⟨"active", none⟩ [closedLoan] =
        (.loan 200 { closedLoan with status := "active" },
          [{ closedLoan with status := "active" }]) ∧
      (findLoan (stepLoans [sampleCustomer] (.setStatus sampleDate 7 ⟨"active", none⟩)
        [closedLoan]) 7).map (fun l => l.status) = some "active" := by
  have h := updateStatus_valid sampleDate 7 ⟨"active", none⟩ [closedLoan] closedLoan rfl
    (by decide) closedLoan_valid
  refine ⟨rfl, rfl, ?_, ?_⟩
  · rw [h]; rfl
  · show (findLoan (updateStatus sampleDate 7 ⟨"active", none⟩ [closedLoan]).2 7).map
      (fun l => l.status) = some "active"
    rw [h]
    rfl

/-- C6 (amended). Take a stored loan that satisfies the schema and whose status
is closed, defaulted or renewed, and any operation of the loan interface. A
status update on that loan with a valid value stores the requested value; every
other operation (creation, any repayment, a status update on another loan or
with an invalid value) leaves its status as it was. Hence the status afterwards
is active only when the operation is a status update on that loan requesting
`active`. -/
theorem terminal_status_left_only_by_update (customers : List Customer) (op : LoanOp)
    (loans : List GoldLoan) (id : Nat) (loan loan' : GoldLoan)
    (hfind : findLoan loans id = some loan)
    (hst : loan.status = "closed" ∨ loan.status = "defaulted" ∨ loan.status = "renewed")
    (hv : loanErrors loan = [])
    (hfind' : findLoan (stepLoans customers op loans) id = some loan') :
    (∀ now req, op = .setStatus now id req → req.status ∈ loanStatuses →
      loan'.status = req.status) ∧
    ((∀ now req, op = .setStatus now id req → req.status ∉ loanStatuses) →
      loan'.status = loan.status) ∧
    (loan'.status = "active" → ∃ now req, op = .setStatus now id req ∧ req.status = "active") := by
  have hne : loan.status ≠ "active" := by
    rcases hst with h | h | h <;> rw [h] <;> decide
  have key : loan'.status = loan.status ∨
      ∃ now req, op = .setStatus now id req ∧ req.status ∈ loanStatuses ∧
        loan'.status = req.status := by
    cases op with
    | create now newId req =>
      left
      have h' : findLoan (createLoan now newId req customers loans).2 id = some loan' := hfind'
      rw [(createLoan_never_stores now newId req customers loans).1, hfind] at h'
      rw [Option.some.inj h']
    | repay now id' req =>
      left
      have hsame : findLoan (addRepayment now id' req loans).2 id = some loan := by
        cases hf : findLoan loans id' with
        | none => simp [addRepayment, hf, hfind]
        | some l2 =>
          by_cases hact : l2.status = "active"
          · have hid2 : l2._id = id' := findLoan_id hf
            have hidne : id' ≠ id := by
              intro he
              rw [he, hfind] at hf
              rw [← Option.some.inj hf] at hact
              exact hne hact
            rcases saveLoan_existing_snd now loans
                (applyRepayment l2 req.amount (req.date.getD now)) with ⟨e, he⟩ | hs
            · simp [addRepayment, hf, hact, he, hfind]
            · have : (addRepayment now id' req loans).2 = replaceLoan loans
                  (preSaveDates false now (applyRepayment l2 req.amount (req.date.getD now))) := by
                simp [addRepayment, hf, hact, hs]
              rw [this, findLoan_replaceLoan_other loans _ id (by
                show l2._id ≠ id
                rw [hid2]; exact hidne)]
              exact hfind
          · rw [addRepayment_inactive now id' req loans l2 hf hact]; exact hfind
      have h' : findLoan (addRepayment now id' req loans).2 id = some loan' := hfind'
      rw [hsame] at h'
      rw [Option.some.inj h']
    | setStatus now id' req =>
      have h' : findLoan (updateStatus now id' req loans).2 id = some loan' := hfind'
      cases hf : findLoan loans id' with
      | none =>
        left
        simp [updateStatus, hf, hfind] at h'
        rw [h']
      | some l2 =>
        by_cases hreq : req.status ∈ loanStatuses
        · have hid2 : l2._id = id' := findLoan_id hf
          rcases saveLoan_existing_snd now loans
              { l2 with status := req.status, updatedAt := some now } with ⟨e, he⟩ | hs
          · left
            simp [updateStatus, hf, hreq, he, hfind] at h'
            rw [h']
          · have hstore : (updateStatus now id' req loans).2 = replaceLoan loans
                (preSaveDates false now { l2 with status := req.status, updatedAt := some now }) := by
              simp [updateStatus, hf, hreq, hs]
            rw [hstore] at h'
            by_cases hid : id' = id
            · right
              subst hid
              have hsame := findLoan_replaceLoan_same loans
                (preSaveDates false now { l2 with status := req.status, updatedAt := some now })
                l2 (by show findLoan loans l2._id = some l2; rw [hid2]; exact hf)
              have hid3 : (preSaveDates false now
                  { l2 with status := req.status, updatedAt := some now })._id = id' := hid2
              rw [hid3] at hsame
              rw [hsame] at h'
              refine ⟨now, req, rfl, hreq, ?_⟩
              rw [← Option.some.inj h']
              rfl
            · left
              rw [findLoan_replaceLoan_other loans _ id (by
                show l2._id ≠ id
                rw [hid2]; exact hid)] at h'
              rw [hfind] at h'
              rw [Option.some.inj h']
        · left
          rw [updateStatus_invalid now id' req loans l2 hf hreq] at h'
          rw [hfind] at h'
          rw [Option.some.inj h']
  have set : ∀ now req, op = .setStatus now id req → req.status ∈ loanStatuses →
      loan'.status = req.status := by
    intro now req hop hreq
    subst hop
    have h := updateStatus_valid now id req loans loan hfind hreq hv
    have h4 := (updateStatus_accepted_inv now id req loans _ loan _ 200 hfind h).2.2.2
    have h' : findLoan (updateStatus now id req loans).2 id = some loan' := hfind'
    rw [h] at h'
    rw [h4] at h'
    rw [← Option.some.inj h']
  refine ⟨set, ?_, ?_⟩
  · intro hno
    rcases key with h | ⟨now, req, h1, h2, _⟩
    · exact h
    · exact absurd h2 (hno now req h1)
  · intro hact
    rcases key with h | ⟨now, req, h1, _, h3⟩
    · rw [h] at hact; exact absurd hact hne
    · exact ⟨now, req, h1, by rw [← h3]; exact hact⟩

/-- C6 (amended) at the closed sample loan: a status update to `renewed` is stored. -/
theorem terminal_status_left_only_by_update_witness :
    ∃ loan', findLoan (stepLoans [sampleCustomer] (.setStatus sampleDate 7 ⟨"renewed", none⟩)
        [closedLoan]) 7 = some loan' ∧ loan'.status = "renewed" := by
  have h := updateStatus_valid sampleDate 7 ⟨"renewed", none⟩ [closedLoan] closedLoan rfl
    (by decide) closedLoan_valid
  have hfind' : findLoan (stepLoans [sampleCustomer] (.setStatus sampleDate 7 ⟨"renewed", none⟩)
      [closedLoan]) 7 = some { closedLoan with status := "renewed" } := by
    show findLoan (updateStatus sampleDate 7 ⟨"renewed", none⟩ [closedLoan]).2 7 = _
    rw [h]
    rfl
  exact ⟨_, hfind', (terminal_status_left_only_by_update [sampleCustomer]
    (.setStatus sampleDate 7 ⟨"renewed", none⟩) [closedLoan] 7 closedLoan _ rfl (Or.inl rfl)
    closedLoan_valid hfind').1 sampleDate ⟨"renewed", none⟩ rfl (by decide)⟩

/-! ## C7: loan numbers -/

/-- The hook itself, run on a collection that holds `GL999999` and `GL1000000`,
reads `GL999999` as the last number (string order) and computes `GL1000000` again. -/
theorem nextLoanNumber_repeats :
    nextLoanNumber [loanNumbered 999999 "GL999999"] = "GL1000000" ∧
      (lastLoan fullStore).map (fun l => l.loanNumber) = some (some "GL999999") ∧
      nextLoanNumber fullStore = "GL1000000" := by
  refine ⟨by decide, by decide, by decide⟩

/-- C7 (code bug). The document the create route builds carries no loan number,
and `save` validates it before the hook that would assign one: `loanNumber`
is always among the failing paths, the save fails, and the collection is left as
it was. On the empty collection the hook would have assigned `GL000001`; no
loan ever receives it. -/
theorem new_loan_gets_no_number :
    (∀ (now : Date) (newId : Nat) (req : LoanRequest) (customers : List Customer)
      (loans : List GoldLoan),
      (newGoldLoan now newId req).loanNumber = none ∧
        "loanNumber" ∈ loanErrors (newGoldLoan now newId req) ∧
        saveLoan now true loans (newGoldLoan now newId req) =
          .error (.validation (loanErrors (newGoldLoan now newId req))) ∧
        (createLoan now newId req customers loans).2 = loans) ∧
      nextLoanNumber [] = "GL000001" ∧
      (createLoan sampleDate 7 sampleRequest [sampleCustomer] []).2 = [] := by
  refine ⟨?_, by decide, (createLoan_never_stores _ _ _ _ _).1⟩
  intro now newId req customers loans
  refine ⟨rfl, ?_, saveLoan_new_rejected now newId req loans,
    (createLoan_never_stores now newId req customers loans).1⟩
  obtain ⟨rest, h⟩ := loanErrors_newGoldLoan now newId req
  rw [h]
  simp

/-! ## C8: the invoice total check -/

theorem orZero_eq (x : Option ℚ) : orZero x = x.getD 0 := by
  cases x with
  | none => rfl
  | some v =>
    by_cases h : v = 0
    · simp [orZero, h]
    · simp [orZero, h]

theorem foldl_add_totalPrice (items : List InvoiceItem) (acc : ℚ) :
    items.foldl (fun sum item => sum + item.totalPrice) acc =
      acc + (items.map (fun item => item.totalPrice)).sum := by
  induction items generalizing acc with
  | nil => simp
  | cons a rest ih => simp [List.foldl_cons, ih, add_assoc]

theorem createInvoice_mismatch (now : Date) (newId : Nat) (req : InvoiceRequest) (db : Books)
    (c : Customer) (hc : findCustomer db.customers req.customerId = some c)
    (h : |calculatedTotal req.items (req.gst.getD 3) - req.totalAmount| > 1 / 100) :
    createInvoice now newId req db =
      (.mismatch 400 "Total amount mismatch" (calculatedTotal req.items (req.gst.getD 3))
        req.totalAmount, db) := by
  simp only [createInvoice, hc, h, if_true]

theorem createInvoice_within (now : Date) (newId : Nat) (req : InvoiceRequest) (db : Books)
    (c : Customer) (hc : findCustomer db.customers req.customerId = some c)
    (h : ¬ |calculatedTotal req.items (req.gst.getD 3) - req.totalAmount| > 1 / 100) :
    (∃ e, (createInvoice now newId req db).1 = .failed 500 "Failed to create invoice" e) ∨
      ∃ saved, (createInvoice now newId req db).1 = .invoice 201 saved := by
  simp only [createInvoice, hc, h, if_false]
  cases saveInvoice db.invoices _ with
  | error e => exact Or.inl ⟨e, rfl⟩
  | ok r => exact Or.inr ⟨r.1, rfl⟩

/-- C8. For an existing customer, invoice creation prices each item at
`weight × rate + makingCharge` (0 when absent), takes the subtotal `S` as the
sum of these and `gstAmount = S × g / 100` (`g` the request's rate, 3 by
default), and answers 400 `Total amount mismatch` exactly when
`|S + gstAmount − totalAmount| > 0.01`; in that case the invoice and customer
collections are left as they were. -/
theorem invoice_total_check (now : Date) (newId : Nat) (req : InvoiceRequest) (db : Books)
    (c : Customer) (hc : findCustomer db.customers req.customerId = some c) :
    (itemsWithTotal req.items).map (fun item => item.totalPrice) =
        req.items.map (fun item => item.weight * item.rate + item.makingCharge.getD 0) ∧
    subtotal req.items = ((itemsWithTotal req.items).map (fun item => item.totalPrice)).sum ∧
    gstAmount req.items (req.gst.getD 3) = subtotal req.items * (req.gst.getD 3) / 100 ∧
    ((∃ calculated provided, (createInvoice now newId req db).1 =
        .mismatch 400 "Total amount mismatch" calculated provided) ↔
      |subtotal req.items + gstAmount req.items (req.gst.getD 3) - req.totalAmount| > 1 / 100) ∧
    (|subtotal req.items + gstAmount req.items (req.gst.getD 3) - req.totalAmount| > 1 / 100 →
      createInvoice now newId req db =
        (.mismatch 400 "Total amount mismatch"
          (subtotal req.items + gstAmount req.items (req.gst.getD 3)) req.totalAmount, db)) := by
  refine ⟨?_, ?_, ?_, ?_, ?_⟩
  · simp [itemsWithTotal, itemTotalPrice, orZero_eq]
  · simp [subtotal, foldl_add_totalPrice]
  · unfold gstAmount; ring
  · constructor
    · rintro ⟨calculated, provided, h⟩
      by_contra hn
      rcases createInvoice_within now newId req db c hc hn with ⟨e, he⟩ | ⟨saved, hs⟩
      · rw [he] at h; simp at h
      · rw [hs] at h; simp at h
    · intro h
      exact ⟨_, _, by rw [createInvoice_mismatch now newId req db c hc h]⟩
  · intro h
    exact createInvoice_mismatch now newId req db c hc h

/-- C8 at the sample invoice request: stated total 53000 against a computed
53045 is rejected and nothing is stored. -/
theorem invoice_total_check_witness :
    createInvoice sampleDate 1 sampleInvoiceRequest sampleBooks =
      (.mismatch 400 "Total amount mismatch"
        (subtotal sampleInvoiceRequest.items +
          gstAmount sampleInvoiceRequest.items (sampleInvoiceRequest.gst.getD 3))
        sampleInvoiceRequest.totalAmount, sampleBooks) :=
  (invoice_total_check sampleDate 1 sampleInvoiceRequest sampleBooks sampleCustomer rfl).2.2.2.2
    (by
      simp [subtotal, gstAmount, itemsWithTotal, itemTotalPrice, orZero, sampleInvoiceRequest]
      norm_num [abs_of_pos])

/-! ## C9: the repayment history is append-only -/

/-- C9. An accepted repayment appends exactly one record
`{date, amount, interestPaid, principalPaid, remainingBalance}` at the end of
`repayments` (the old list is a prefix of the new one) and keeps `loanNumber`;
an accepted status update leaves `repayments` and `loanNumber` as they were. -/
theorem repayments_append_only (now : Date) (id : Nat) (loans : List GoldLoan)
    (loan : GoldLoan) (hfind : findLoan loans id = some loan) :
    (∀ req code saved loans', addRepayment now id req loans = (.loan code saved, loans') →
      findLoan loans' id = some saved ∧
      saved.repayments = loan.repayments ++
        [{ date := req.date.getD now
           amount := req.amount
           interestPaid := interestPaid loan req.amount
           principalPaid := principalPaid loan req.amount
           remainingBalance := remainingBalance loan req.amount }] ∧
      loan.repayments <+: saved.repayments ∧
      saved.repayments.length = loan.repayments.length + 1 ∧
      saved.loanNumber = loan.loanNumber) ∧
    (∀ req code saved loans', updateStatus now id req loans = (.loan code saved, loans') →
      findLoan loans' id = some saved ∧ saved.repayments = loan.repayments ∧
      saved.loanNumber = loan.loanNumber) := by
  constructor
  · intro req code saved loans' h
    obtain ⟨_, h2, _, h4, _⟩ := addRepayment_accepted_inv now id req loans loans' loan saved code hfind h
    have hr : saved.repayments = loan.repayments ++
        [repaymentRecord loan req.amount (req.date.getD now)] := by rw [h2]; rfl
    refine ⟨h4, hr, ?_, ?_, ?_⟩
    · rw [hr]; exact List.prefix_append _ _
    · rw [hr]; simp
    · rw [h2]; rfl
  · intro req code saved loans' h
    obtain ⟨_, h2, _, h4⟩ := updateStatus_accepted_inv now id req loans loans' loan saved code hfind h
    exact ⟨h4, by rw [h2], by rw [h2]⟩

/-- C9 at the sample loan: the first repayment makes a history of length one. -/
theorem repayments_append_only_witness :
    ∃ saved, addRepayment sampleDate 7 ⟨2000, none⟩ [sampleLoan] =
        (.loan 200 saved, replaceLoan [sampleLoan] saved) ∧
      saved.repayments.length = sampleLoan.repayments.length + 1 :=
  ⟨_, addRepayment_active sampleDate 7 ⟨2000, none⟩ [sampleLoan] sampleLoan rfl rfl sampleLoan_valid,
    ((repayments_append_only sampleDate 7 [sampleLoan] sampleLoan rfl).1 ⟨2000, none⟩ 200 _ _
      (addRepayment_active sampleDate 7 ⟨2000, none⟩ [sampleLoan] sampleLoan rfl rfl
        sampleLoan_valid)).2.2.2.1⟩

/-! ## C10: the status update -/

/-- C10. On an existing loan that satisfies the schema (as every document
written by `save` does), whatever its current status, a status update with a value among active, closed, defaulted, renewed succeeds
and stores that value; any other value is answered with 400 `Invalid status`
and the collection is left as it was. -/
theorem updateStatus_sets_requested (now : Date) (id : Nat) (req : StatusRequest)
    (loans : List GoldLoan) (loan : GoldLoan)
    (hfind : findLoan loans id = some loan) (hv : loanErrors loan = []) :
    (req.status ∈ ["active", "closed", "defaulted", "renewed"] →
      ∃ saved, updateStatus now id req loans = (.loan 200 saved, replaceLoan loans saved) ∧
        findLoan (replaceLoan loans saved) id = some saved ∧ saved.status = req.status) ∧
    (req.status ∉ ["active", "closed", "defaulted", "renewed"] →
      updateStatus now id req loans = (.message 400 [.text "Invalid status"], loans) ∧
      findLoan (updateStatus now id req loans).2 id = some loan) := by
  constructor
  · intro hst
    have h := updateStatus_valid now id req loans loan hfind hst hv
    obtain ⟨_, _, h3, h4⟩ := updateStatus_accepted_inv now id req loans _ loan _ 200 hfind h
    exact ⟨_, h, h4, rfl⟩
  · intro hst
    have h := updateStatus_invalid now id req loans loan hfind hst
    rw [h]
    exact ⟨rfl, hfind⟩

/-- C10 at the sample loan: an active loan is set to renewed. -/
theorem updateStatus_sets_requested_witness :
    ∃ saved, updateStatus sampleDate 7 ⟨"renewed", none⟩ [sampleLoan] =
        (.loan 200 saved, replaceLoan [sampleLoan] saved) ∧
      findLoan (replaceLoan [sampleLoan] saved) 7 = some saved ∧ saved.status = "renewed" :=
  (updateStatus_sets_requested sampleDate 7 ⟨"renewed", none⟩ [sampleLoan] sampleLoan rfl
    sampleLoan_valid).1 (by decide)

/-! ## C11: stock status after a transaction -/

theorem findItem_id {items : List Inventory} {id : Nat} {item : Inventory}
    (h : findItem items id = some item) : item._id = id := by
  have := List.find?_some h
  simpa using this

theorem findItem_replaceItem_same (items : List Inventory) (doc old : Inventory)
    (h : findItem items doc._id = some old) :
    findItem (replaceItem items doc) doc._id = some doc := by
  induction items with
  | nil => simp [findItem] at h
  | cons a rest ih =>
    by_cases ha : a._id = doc._id
    · simp [findItem, replaceItem, ha]
    · have h2 : findItem rest doc._id = some old := by
        simpa [findItem, List.find?_cons, ha] using h
      have := ih h2
      simpa [findItem, replaceItem, List.find?_cons, ha] using this

theorem preSaveStockStatus_status (i : Inventory) :
    (preSaveStockStatus i).status = stockStatus i.quantity i.reorderLevel := by
  unfold preSaveStockStatus stockStatus
  split_ifs <;> rfl

theorem preSaveStockStatus_quantity (i : Inventory) :
    (preSaveStockStatus i).quantity = i.quantity := by
  unfold preSaveStockStatus
  split_ifs <;> rfl

theorem preSaveStockStatus_reorderLevel (i : Inventory) :
    (preSaveStockStatus i).reorderLevel = i.reorderLevel := by
  unfold preSaveStockStatus
  split_ifs <;> rfl

theorem preSaveStockStatus_id (i : Inventory) : (preSaveStockStatus i)._id = i._id := by
  unfold preSaveStockStatus
  split_ifs <;> rfl

theorem hookedTransaction_quantity (now : Date) (items : List Inventory) (item : Inventory)
    (req : TransactionRequest) :
    (hookedTransaction now items item req).quantity =
      item.quantity + quantityChange req.type req.quantity := by
  unfold hookedTransaction
  rw [preSaveStockStatus_quantity]
  rfl

theorem hookedTransaction_reorderLevel (now : Date) (items : List Inventory) (item : Inventory)
    (req : TransactionRequest) :
    (hookedTransaction now items item req).reorderLevel = item.reorderLevel := by
  unfold hookedTransaction
  rw [preSaveStockStatus_reorderLevel]
  rfl

theorem hookedTransaction_id (now : Date) (items : List Inventory) (item : Inventory)
    (req : TransactionRequest) :
    (hookedTransaction now items item req)._id = item._id := by
  unfold hookedTransaction
  rw [preSaveStockStatus_id]
  rfl

theorem hookedTransaction_status (now : Date) (items : List Inventory) (item : Inventory)
    (req : TransactionRequest) :
    (hookedTransaction now items item req).status =
      stockStatus (hookedTransaction now items item req).quantity
        (hookedTransaction now items item req).reorderLevel := by
  unfold hookedTransaction
  rw [preSaveStockStatus_status, preSaveStockStatus_quantity, preSaveStockStatus_reorderLevel]

theorem saveInventory_existing_eq (now : Date) (items : List Inventory) (doc : Inventory) :
    saveInventory now false items doc =
      match inventoryErrors doc with
      | p :: ps => .error (.validation (p :: ps))
      | [] => .ok (preSaveStockStatus (preSaveItemCode false now items doc),
          replaceItem items (preSaveStockStatus (preSaveItemCode false now items doc))) := rfl

theorem addTransaction_insufficient (now : Date) (id : Nat) (req : TransactionRequest)
    (items : List Inventory) (item : Inventory) (hfind : findItem items id = some item)
    (h : req.type = some "sale" ∧ req.quantity > item.quantity) :
    addTransaction now id req items = (.message 400 "Insufficient stock", items) := by
  simp only [addTransaction, hfind, h, and_self, if_true]

theorem addTransaction_saved (now : Date) (id : Nat) (req : TransactionRequest)
    (items : List Inventory) (item : Inventory) (hfind : findItem items id = some item)
    (h : ¬ (req.type = some "sale" ∧ req.quantity > item.quantity))
    (hv : inventoryErrors (applyTransaction now item req) = []) :
    addTransaction now id req items =
      (.item 200 (hookedTransaction now items item req),
        replaceItem items (hookedTransaction now items item req)) := by
  have hs := saveInventory_existing_eq now items (applyTransaction now item req)
  rw [hv] at hs
  simp only [addTransaction, hfind, h, if_false, hs]
  rfl

theorem addTransaction_accepted_inv (now : Date) (id : Nat) (req : TransactionRequest)
    (items items' : List Inventory) (item saved : Inventory) (code : Nat)
    (hfind : findItem items id = some item)
    (h : addTransaction now id req items = (.item code saved, items')) :
    ¬ (req.type = some "sale" ∧ req.quantity > item.quantity) ∧
      saved = hookedTransaction now items item req ∧ items' = replaceItem items saved ∧
      findItem items' id = some saved ∧
      inventoryErrors (applyTransaction now item req) = [] := by
  by_cases hi : req.type = some "sale" ∧ req.quantity > item.quantity
  · rw [addTransaction_insufficient now id req items item hfind hi] at h
    simp at h
  · cases he : inventoryErrors (applyTransaction now item req) with
    | nil =>
      rw [addTransaction_saved now id req items item hfind hi he] at h
      simp only [Prod.mk.injEq, InventoryReply.item.injEq] at h
      obtain ⟨⟨_, h1⟩, h2⟩ := h
      subst h1
      refine ⟨hi, rfl, h2.symm, ?_, rfl⟩
      have hid : (hookedTransaction now items item req)._id = id := by
        rw [hookedTransaction_id]; exact findItem_id hfind
      rw [← h2, ← hid]
      exact findItem_replaceItem_same items _ item (by rw [hid]; exact hfind)
    | cons p ps =>
      have hs := saveInventory_existing_eq now items (applyTransaction now item req)
      rw [he] at hs
      simp only [addTransaction, hfind, hi, if_false, hs] at h
      simp at h

theorem stockStatus_cases (q r : ℚ) :
    (q ≤ 0 → stockStatus q r = "out-of-stock") ∧
    (0 < q → q ≤ r → stockStatus q r = "low-stock") ∧
    (0 < q → r < q → stockStatus q r = "in-stock") := by
  unfold stockStatus
  refine ⟨fun h => by simp [h], fun h1 h2 => ?_, fun h1 h2 => ?_⟩
  · simp [not_le.2 h1, h2]
  · simp [not_le.2 h1, not_le.2 h2]

theorem transactionErrors_nil_iff (t : StockTransaction) :
    transactionErrors t = [] ↔ ∀ ty, t.type = some ty → ty ∈ transactionTypes := by
  unfold transactionErrors
  cases t.type with
  | none => simp
  | some ty =>
    by_cases h : ty ∈ transactionTypes <;> simp [h]

theorem inventoryErrors_nil_iff (i : Inventory) :
    inventoryErrors i = [] ↔
      i.itemCode.isSome = true ∧ i.itemType ∈ inventoryItemTypes ∧
      i.category ∈ inventoryCategories ∧ i.name ≠ "" ∧ 0 ≤ i.weight ∧
      i.unit ∈ inventoryUnits ∧ 0 ≤ i.quantity ∧ i.location ≠ "" ∧
      i.status ∈ inventoryStatuses ∧
      ∀ t ∈ i.transactions, ∀ ty, t.type = some ty → ty ∈ transactionTypes := by
  unfold inventoryErrors
  simp only [List.append_eq_nil, List.flatMap_eq_nil_iff, transactionErrors_nil_iff,
    ite_eq_left_iff, ite_eq_right_iff, List.cons_ne_nil, imp_false, not_not, and_assoc,
    List.append_assoc, ne_eq]

theorem stockStatus_mem (q r : ℚ) : stockStatus q r ∈ inventoryStatuses := by
  unfold stockStatus inventoryStatuses
  split_ifs <;> simp

/-- The document the transaction route hands to `save` passes validation when
the stored item did, the new quantity is not negative and the type, if given,
is one of the four. -/
theorem inventoryErrors_applyTransaction (now : Date) (item : Inventory)
    (req : TransactionRequest) (hv : inventoryErrors item = [])
    (hq : 0 ≤ item.quantity + quantityChange req.type req.quantity)
    (ht : ∀ ty, req.type = some ty → ty ∈ transactionTypes) :
    inventoryErrors (applyTransaction now item req) = [] := by
  rw [inventoryErrors_nil_iff] at hv ⊢
  obtain ⟨h1, h2, h3, h4, h5, h6, _, h8, h9, h10⟩ := hv
  refine ⟨h1, h2, h3, h4, h5, h6, hq, h8, h9, ?_⟩
  intro t hmem
  have hmem' : t ∈ item.transactions ++
      [{ date := now, type := req.type, quantity := req.quantity, price := req.price,
         reference := req.reference, notes := req.notes }] := hmem
  rcases List.mem_append.1 hmem' with hm | hm
  · exact h10 t hm
  · rw [List.mem_singleton.1 hm]; exact ht

theorem sampleItemDoc_valid : inventoryErrors sampleItemDoc = [] := by
  rw [inventoryErrors_nil_iff]
  simp [sampleItemDoc, inventoryItemTypes, inventoryCategories, inventoryUnits,
    inventoryStatuses]

theorem sampleSale_saved :
    addTransaction sampleDate 3 sampleSale [sampleItemDoc] =
      (.item 200 (hookedTransaction sampleDate [sampleItemDoc] sampleItemDoc sampleSale),
        replaceItem [sampleItemDoc]
          (hookedTransaction sampleDate [sampleItemDoc] sampleItemDoc sampleSale)) := by
  apply addTransaction_saved sampleDate 3 sampleSale [sampleItemDoc] sampleItemDoc rfl
  · simp [sampleSale, sampleItemDoc]
    norm_num
  · apply inventoryErrors_applyTransaction _ _ _ sampleItemDoc_valid
    · simp [quantityChange, sampleSale, sampleItemDoc]
      norm_num
    · intro ty hty
      simp [sampleSale] at hty
      rw [← hty]
      decide

/-- C11. On an existing inventory item, a sale of more than the stock is
answered with 400 `Insufficient stock` and changes nothing. Every transaction
the route accepts is stored with the quantity raised by the requested quantity
(purchase, return) or lowered by it (sale, adjustment), and with the status the
new quantity determines, whatever the status was before: out-of-stock if
quantity ≤ 0, low-stock if 0 < quantity ≤ reorderLevel, in-stock otherwise. -/
theorem transaction_status_follows_quantity (now : Date) (id : Nat) (req : TransactionRequest)
    (items : List Inventory) (item : Inventory) (hfind : findItem items id = some item) :
    (req.type = some "sale" → req.quantity > item.quantity →
      addTransaction now id req items = (.message 400 "Insufficient stock", items)) ∧
    (∀ code saved items', addTransaction now id req items = (.item code saved, items') →
      findItem items' id = some saved ∧
      (req.type = some "purchase" ∨ req.type = some "return" →
        saved.quantity = item.quantity + req.quantity) ∧
      (req.type = some "sale" ∨ req.type = some "adjustment" →
        saved.quantity = item.quantity - req.quantity) ∧
      saved.reorderLevel = item.reorderLevel ∧
      (saved.quantity ≤ 0 → saved.status = "out-of-stock") ∧
      (0 < saved.quantity → saved.quantity ≤ saved.reorderLevel → saved.status = "low-stock") ∧
      (0 < saved.quantity → saved.reorderLevel < saved.quantity → saved.status = "in-stock")) := by
  constructor
  · intro h1 h2
    exact addTransaction_insufficient now id req items item hfind ⟨h1, h2⟩
  · intro code saved items' h
    obtain ⟨_, h2, _, h4, _⟩ :=
      addTransaction_accepted_inv now id req items items' item saved code hfind h
    have hq : saved.quantity = item.quantity + quantityChange req.type req.quantity := by
      rw [h2]; exact hookedTransaction_quantity now items item req
    have hst : saved.status = stockStatus saved.quantity saved.reorderLevel := by
      rw [h2]; exact hookedTransaction_status now items item req
    obtain ⟨c1, c2, c3⟩ := stockStatus_cases saved.quantity saved.reorderLevel
    refine ⟨h4, ?_, ?_, ?_, ?_, ?_, ?_⟩
    · intro ht
      rw [hq, quantityChange, if_pos ht]
    · intro ht
      have hn : ¬ (req.type = some "purchase" ∨ req.type = some "return") := by
        rcases ht with ht | ht <;> rw [ht] <;> decide
      rw [hq, quantityChange, if_neg hn]
      ring
    · rw [h2]; exact hookedTransaction_reorderLevel now items item req
    · intro hle; rw [hst]; exact c1 hle
    · intro hpos hle; rw [hst]; exact c2 hpos hle
    · intro hpos hlt; rw [hst]; exact c3 hpos hlt

/-- C11 at the sample item (10 in stock, reorder level 4, marked `ordered`): a
sale of 7 is accepted and the item is stored with 3 in stock as low-stock. -/
theorem transaction_status_follows_quantity_witness :
    ∃ saved items', addTransaction sampleDate 3 sampleSale [sampleItemDoc] =
        (.item 200 saved, items') ∧ saved.quantity = 3 ∧ saved.status = "low-stock" := by
  obtain ⟨_, _, h3, h4, _, h6, _⟩ :=
    (transaction_status_follows_quantity sampleDate 3 sampleSale [sampleItemDoc]
      sampleItemDoc rfl).2 200 _ _ sampleSale_saved
  have hq : (hookedTransaction sampleDate [sampleItemDoc] sampleItemDoc sampleSale).quantity
      = 3 := by
    rw [h3 (Or.inl rfl)]
    show (10 : ℚ) - 7 = 3
    norm_num
  have hr : (hookedTransaction sampleDate [sampleItemDoc] sampleItemDoc sampleSale).reorderLevel
      = 4 := h4
  exact ⟨_, _, sampleSale_saved, hq, h6 (by rw [hq]; norm_num) (by rw [hq, hr]; norm_num)⟩

/-! ## C12: the dates of a new loan -/

theorem before_of_year_lt (a b : Date) (h : a.year < b.year) : a.before b = true := by
  simp [Date.before, h]

theorem before_of_month_lt (a b : Date) (hy : a.year = b.year) (h : a.month < b.month) :
    a.before b = true := by
  simp [Date.before, hy, h]

theorem setMonth_month_lt (d : Date) (m : Int) : (d.setMonth m).month < 12 := by
  have hmn : (m % 12).toNat < 12 := by omega
  unfold Date.setMonth
  simp only
  split_ifs with h1 h2
  · exact hmn
  · show 0 < 12
    decide
  · show (m % 12).toNat + 1 < 12
    have : (m % 12).toNat ≠ 11 := by simpa using h2
    omega

theorem setMonth_succ_later (d : Date) (h : d.month < 12) :
    d.before (d.setMonth (d.getMonth + 1)) = true := by
  unfold Date.setMonth Date.getMonth
  simp only
  by_cases h11 : d.month = 11
  · have e1 : ((d.month : Int) + 1) / 12 = 1 := by omega
    have e2 : (((d.month : Int) + 1) % 12).toNat = 0 := by omega
    rw [e1, e2]
    split_ifs <;> apply before_of_year_lt <;> dsimp only <;> omega
  · have e1 : ((d.month : Int) + 1) / 12 = 0 := by omega
    have e2 : (((d.month : Int) + 1) % 12).toNat = d.month + 1 := by omega
    rw [e1, e2]
    split_ifs
    · apply before_of_month_lt
      · show d.year = d.year + 0; omega
      · show d.month < d.month + 1; omega
    · apply before_of_year_lt; show d.year < d.year + 0 + 1; omega
    · apply before_of_month_lt
      · show d.year = d.year + 0; omega
      · show d.month < d.month + 1 + 1; omega

/-- C12 (code bug). The document the create route builds has no `endDate`, and
`save` validates it before the hook that would compute the dates: `endDate` is
always among the failing paths and the save fails, so no new loan is stored with
the dates the claim describes. The hook itself, were it reached, moves one date
object twice: `endDate` is the start date advanced by `duration` months, but
`nextPaymentDue` is that `endDate` advanced by one more month, hence later than
`endDate`; on the sample request (start 2024-01-15, 12 months) it yields
2025-01-15 and 2025-02-15, where the start date advanced by one month is
2024-02-15. -/
theorem new_loan_dates_never_stored :
    (∀ (now : Date) (newId : Nat) (req : LoanRequest) (loans : List GoldLoan),
      (newGoldLoan now newId req).endDate = none ∧
        (newGoldLoan now newId req).nextPaymentDue = none ∧
        "endDate" ∈ loanErrors (newGoldLoan now newId req) ∧
        ∃ paths, saveLoan now true loans (newGoldLoan now newId req) =
          .error (.validation ("endDate" :: paths))) ∧
    (∀ (now : Date) (l : GoldLoan),
      ∃ e n, (preSaveDates true now l).endDate = some e ∧
        e = l.startDate.setMonth (l.startDate.getMonth + toInteger l.duration) ∧
        (preSaveDates true now l).nextPaymentDue = some n ∧
        n = e.setMonth (e.getMonth + 1) ∧ e.before n = true) ∧
    (hookedNewLoan sampleDate 7 sampleRequest []).endDate =
      some { year := 2025, month := 0, day := 15, time := 0 } ∧
    (hookedNewLoan sampleDate 7 sampleRequest []).nextPaymentDue =
      some { year := 2025, month := 1, day := 15, time := 0 } ∧
    sampleDate.setMonth (sampleDate.getMonth + 1) =
      { year := 2024, month := 1, day := 15, time := 0 } := by
  refine ⟨?_, ?_, ?_, ?_, by decide⟩
  · intro now newId req loans
    obtain ⟨rest, h⟩ := loanErrors_newGoldLoan now newId req
    refine ⟨rfl, rfl, by rw [h]; simp, "loanNumber" :: rest, ?_⟩
    rw [saveLoan_new_rejected, h]
  · intro now l
    exact ⟨_, _, rfl, rfl, rfl, rfl,
      setMonth_succ_later _ (setMonth_month_lt l.startDate _)⟩
  · rw [hookedNewLoan_sample]; rfl
  · rw [hookedNewLoan_sample]; rfl

/-! ## C13: the due amount of an invoice and of its customer entry -/

theorem createInvoice_created (now : Date) (newId : Nat) (req : InvoiceRequest) (db : Books)
    (c : Customer) (hc : findCustomer db.customers req.customerId = some c)
    (h : ¬ |calculatedTotal req.items (req.gst.getD 3) - req.totalAmount| > 1 / 100)
    (hv : (itemsWithTotal req.items).flatMap
      (fun it => if it.name = "" then ["items.name"] else []) = [])
    (h1 : db.invoices.any (fun i => i._id == (hookedInvoice now newId req db.invoices)._id) = false)
    (h2 : db.invoices.any (fun i => i.invoiceNumber ==
      (hookedInvoice now newId req db.invoices).invoiceNumber) = false) :
    createInvoice now newId req db =
      (.invoice 201 (hookedInvoice now newId req db.invoices),
        { customers := updateCustomer db.customers req.customerId
            { invoiceId := (hookedInvoice now newId req db.invoices)._id
              date := (hookedInvoice now newId req db.invoices).date
              totalAmount := req.totalAmount
              paidAmount := req.paidAmount.getD 0
              dueAmount := req.totalAmount - req.paidAmount.getD 0 }
            (req.totalAmount - req.paidAmount.getD 0)
            (Rat.floor (req.paidAmount.getD 0 / 100))
          invoices := db.invoices ++ [hookedInvoice now newId req db.invoices] }) := by
  have hs : saveInvoice db.invoices
      { _id := newId, invoiceNumber := none, date := req.date.getD now, customer := req.customerId,
        totalAmount := req.totalAmount, paidAmount := req.paidAmount.getD 0,
        dueAmount := req.totalAmount - req.paidAmount.getD 0,
        items := itemsWithTotal req.items, gst := req.gst.getD 3,
        gstAmount := gstAmount req.items (req.gst.getD 3),
        subtotal := subtotal req.items, status := "pending" } =
      .ok (hookedInvoice now newId req db.invoices,
        db.invoices ++ [hookedInvoice now newId req db.invoices]) := by
    unfold saveInvoice invoiceErrors
    unfold hookedInvoice at h1 h2 ⊢
    simp only [hv, h1, h2, Bool.false_eq_true, if_false]
  simp only [createInvoice, hc, h, if_false, hs]

theorem preSaveInvoiceStatus_fields (inv : Invoice) :
    (preSaveInvoiceStatus inv)._id = inv._id ∧
      (preSaveInvoiceStatus inv).invoiceNumber = inv.invoiceNumber ∧
      (preSaveInvoiceStatus inv).items = inv.items ∧
      (preSaveInvoiceStatus inv).date = inv.date ∧
      (preSaveInvoiceStatus inv).totalAmount = inv.totalAmount ∧
      (preSaveInvoiceStatus inv).paidAmount = inv.paidAmount := by
  unfold preSaveInvoiceStatus
  split_ifs <;> exact ⟨rfl, rfl, rfl, rfl, rfl, rfl⟩

theorem preSaveInvoiceStatus_due (inv : Invoice) :
    (inv.paidAmount ≥ inv.totalAmount → (preSaveInvoiceStatus inv).dueAmount = 0) ∧
    (inv.paidAmount < inv.totalAmount → 0 < inv.paidAmount →
      (preSaveInvoiceStatus inv).dueAmount = inv.totalAmount - inv.paidAmount) ∧
    (inv.paidAmount < inv.totalAmount → inv.paidAmount ≤ 0 →
      (preSaveInvoiceStatus inv).dueAmount = inv.totalAmount) := by
  unfold preSaveInvoiceStatus
  refine ⟨fun h => ?_, fun h1 h2 => ?_, fun h1 h2 => ?_⟩
  · rw [if_pos h]
  · rw [if_neg (not_le.2 h1), if_pos h2]
  · rw [if_neg (not_le.2 h1), if_neg (not_lt.2 h2)]

theorem overpaidRequest_total :
    calculatedTotal overpaidRequest.items (overpaidRequest.gst.getD 3) = 53045 := by
  simp [calculatedTotal, subtotal, gstAmount, itemsWithTotal, itemTotalPrice, orZero,
    overpaidRequest, sampleInvoiceRequest]
  norm_num

theorem overpaid_hooked_due :
    (hookedInvoice sampleDate 1 overpaidRequest sampleBooks.invoices).dueAmount = 0 := by
  unfold hookedInvoice
  apply (preSaveInvoiceStatus_due _).1
  show (60000 : ℚ) ≥ 53045
  norm_num

theorem overpaid_created :
    createInvoice sampleDate 1 overpaidRequest sampleBooks =
      (.invoice 201 (hookedInvoice sampleDate 1 overpaidRequest sampleBooks.invoices),
        { customers :=
            [{ sampleCustomer with
               history := [{ invoiceId := 1, date := sampleDate, totalAmount := 53045,
                             paidAmount := 60000, dueAmount := 53045 - 60000 }]
               totalDue := 0 + (53045 - 60000)
               loyaltyPoints := 0 + (Rat.floor (60000 / 100) : ℚ) }]
          invoices := [hookedInvoice sampleDate 1 overpaidRequest sampleBooks.invoices] }) := by
  have hf := preSaveInvoiceStatus_fields
  have h := createInvoice_created sampleDate 1 overpaidRequest sampleBooks sampleCustomer rfl
    (by rw [overpaidRequest_total]; norm_num [overpaidRequest])
    (by simp [itemsWithTotal, overpaidRequest, sampleInvoiceRequest])
    rfl rfl
  rw [h]
  have hid : (hookedInvoice sampleDate 1 overpaidRequest sampleBooks.invoices)._id = 1 := by
    unfold hookedInvoice; rw [(hf _).1]; rfl
  have hdate : (hookedInvoice sampleDate 1 overpaidRequest sampleBooks.invoices).date
      = sampleDate := by
    unfold hookedInvoice; rw [(hf _).2.2.2.1]; rfl
  rw [hid, hdate]
  rfl

/-- Where the paid amount lies between 0 and the total, the due amount the hook
stores on the invoice is the `totalAmount − paidAmount` the route books on the customer. -/
theorem hookedInvoice_due_within (now : Date) (newId : Nat) (req : InvoiceRequest)
    (invoices : List Invoice) (h0 : 0 ≤ req.paidAmount.getD 0)
    (h1 : req.paidAmount.getD 0 ≤ req.totalAmount) :
    (hookedInvoice now newId req invoices).dueAmount =
      req.totalAmount - req.paidAmount.getD 0 := by
  unfold hookedInvoice
  obtain ⟨c1, c2, c3⟩ := preSaveInvoiceStatus_due (preSaveInvoiceNumber invoices
    { _id := newId, invoiceNumber := none, date := req.date.getD now, customer := req.customerId,
      totalAmount := req.totalAmount, paidAmount := req.paidAmount.getD 0,
      dueAmount := req.totalAmount - req.paidAmount.getD 0,
      items := itemsWithTotal req.items, gst := req.gst.getD 3,
      gstAmount := gstAmount req.items (req.gst.getD 3),
      subtotal := subtotal req.items, status := "pending" })
  have hp : ∀ inv : Invoice, inv.invoiceNumber = none →
      (preSaveInvoiceNumber invoices inv).paidAmount = inv.paidAmount ∧
      (preSaveInvoiceNumber invoices inv).totalAmount = inv.totalAmount := by
    intro inv hn
    unfold preSaveInvoiceNumber
    rw [hn]
    exact ⟨rfl, rfl⟩
  obtain ⟨hp1, hp2⟩ := hp
    { _id := newId, invoiceNumber := none, date := req.date.getD now, customer := req.customerId,
      totalAmount := req.totalAmount, paidAmount := req.paidAmount.getD 0,
      dueAmount := req.totalAmount - req.paidAmount.getD 0,
      items := itemsWithTotal req.items, gst := req.gst.getD 3,
      gstAmount := gstAmount req.items (req.gst.getD 3),
      subtotal := subtotal req.items, status := "pending" } rfl
  rw [hp1, hp2] at c1 c2 c3
  rcases lt_or_eq_of_le h1 with hlt | heq
  · rcases lt_or_eq_of_le h0 with hpos | hz
    · exact c2 hlt hpos
    · rw [c3 hlt (le_of_eq hz.symm), ← hz]; simp
  · rw [c1 (le_of_eq heq.symm), heq]; simp

/-- C13 (code bug). An invoice for the sample items at their computed total
53045 with 60000 paid is created; the second pre-save hook stores
`dueAmount = 0` on the invoice, while the route books `dueAmount = −6955` in
the customer's history entry and raises the customer's `totalDue` by −6955. -/
theorem overpaid_invoice_due_differs :
    ∃ saved customer entry,
      createInvoice sampleDate 1 overpaidRequest sampleBooks =
        (.invoice 201 saved, { customers := [customer], invoices := [saved] }) ∧
      saved.dueAmount = 0 ∧ customer.history = [entry] ∧ entry.dueAmount = -6955 ∧
      customer.totalDue = sampleCustomer.totalDue + -6955 := by
  refine ⟨_, _, _, overpaid_created, overpaid_hooked_due, rfl, ?_, ?_⟩
  · show (53045 : ℚ) - 60000 = -6955
    norm_num
  · show (0 : ℚ) + (53045 - 60000) = sampleCustomer.totalDue + -6955
    simp [sampleCustomer]
    norm_num

end JewelShop
